import Mathlib

/-!
# SICK S300 telegram parser (`TelegramS300.hpp`)

A shallow embedding of `TelegramParser` from
`include/sicks300_ros2/common/TelegramS300.hpp`, and of the baud-rate lookup
`getBaudrateCode` from `src/common/SerialIO.cpp`.

Conventions of the embedding:

* the host is little-endian (the unions of the source overlay a packed struct
  on a byte array, and the code compares fields that were never passed through
  `ntoh` with host constants);
* `const unsigned char * buffer` is a total map from byte offsets to bytes, and
  `buffer + k` is `Buffer.plus buffer k`;
* `size_t` is 64 bits wide, `int` is 32 bits wide in two's complement; every
  implicit conversion of the source is written out with `to_size_t` / `to_int`;
* `createCRC` is only declared in the header, so it is a parameter with the
  declared signature `unsigned int createCRC(uint8_t * ptrData, int Size)`;
* the `debug` flag only switches printing and is left out;
* the speed macros `B0` .. `B1000000` of `termios.h` are parameters, gathered
  in `Termios`.
-/

namespace SickS300

/-! ## Machine integers and memory -/

/-- One byte, `uint8_t`. -/
abbrev uint8_t := Fin 256

/-- A pointer to bytes: the memory seen from that address on. -/
abbrev Buffer := Nat → uint8_t

/-- Pointer arithmetic `buffer + k`. -/
def Buffer.plus (buffer : Buffer) (k : Nat) : Buffer := fun i => buffer (k + i)

/-- The memory holding exactly the bytes of a list (zero beyond its end). -/
def ofBytes (l : List uint8_t) : Buffer := fun i => l.getD i 0

/-- Modulus of `size_t` arithmetic, `2^64`. -/
def size_t_mod : Nat := 18446744073709551616

/-- Conversion of a signed integer to `size_t`. -/
def to_size_t (x : Int) : Nat := (x % 18446744073709551616).toNat

/-- Conversion of an unsigned value to a 32-bit `int` (two's complement). -/
def to_int (x : Nat) : Int :=
  if x % 4294967296 < 2147483648 then ((x % 4294967296 : Nat) : Int)
  else ((x % 4294967296 : Nat) : Int) - 4294967296

/-- Conversion of an unsigned value to `uint16_t`. -/
def to_uint16_t (x : Nat) : Nat := x % 65536

/-- Byte swap of a 16-bit value: `ntohs` on a little-endian host. -/
def ntohs (x : Nat) : Nat := (x % 256) * 256 + (x / 256) % 256

/-- Byte swap of a 32-bit value: `ntohl` on a little-endian host. -/
def ntohl (x : Nat) : Nat :=
  (x % 256) * 16777216 + (x / 256 % 256) * 65536 + (x / 65536 % 256) * 256 + (x / 16777216) % 256

/-- Host-order read of a `uint16_t` at a pointer. -/
def read_uint16_t (p : Buffer) : Nat := (p 0).val + 256 * (p 1).val

/-- Host-order read of a `uint32_t` at a pointer. -/
def read_uint32_t (p : Buffer) : Nat :=
  (p 0).val + 256 * (p 1).val + 65536 * (p 2).val + 16777216 * (p 3).val

/-! ## The packed unions -/

/-- The struct view of `union TELEGRAM_COMMON1` (10 bytes). -/
structure TELEGRAM_COMMON1 where
  reply_telegram : Nat
  trigger_result : Nat
  size : Nat
  coordination_flag : Nat
  device_addresss : Nat
deriving DecidableEq, Repr

/-- The struct view of `union TELEGRAM_COMMON2` (10 bytes). -/
structure TELEGRAM_COMMON2 where
  protocol_version : Nat
  status : Nat
  scan_number : Nat
  telegram_number : Nat
deriving DecidableEq, Repr

/-- The struct view of `union TELEGRAM_COMMON3` (2 bytes). -/
structure TELEGRAM_COMMON3 where
  type : Nat
deriving DecidableEq, Repr

/-- The struct view of `union TELEGRAM_DISTANCE` (2 bytes). -/
structure TELEGRAM_DISTANCE where
  type : Nat
deriving DecidableEq, Repr

/-- The struct view of `union TELEGRAM_TAIL` (2 bytes). -/
structure TELEGRAM_TAIL where
  crc : Nat
deriving DecidableEq, Repr

/-- The value `*reinterpret_cast<const TELEGRAM_COMMON1 *>(p)`. -/
def TELEGRAM_COMMON1.read (p : Buffer) : TELEGRAM_COMMON1 :=
  { reply_telegram := read_uint32_t p
    trigger_result := read_uint16_t (p.plus 4)
    size := read_uint16_t (p.plus 6)
    coordination_flag := (p 8).val
    device_addresss := (p 9).val }

/-- The array view `tc.bytes[i]` of `union TELEGRAM_COMMON1`. -/
def TELEGRAM_COMMON1.bytes (tc : TELEGRAM_COMMON1) (i : Nat) : Nat :=
  match i with
  | 0 => tc.reply_telegram % 256
  | 1 => tc.reply_telegram / 256 % 256
  | 2 => tc.reply_telegram / 65536 % 256
  | 3 => tc.reply_telegram / 16777216 % 256
  | 4 => tc.trigger_result % 256
  | 5 => tc.trigger_result / 256 % 256
  | 6 => tc.size % 256
  | 7 => tc.size / 256 % 256
  | 8 => tc.coordination_flag % 256
  | 9 => tc.device_addresss % 256
  | _ => 0

/-- The value `*reinterpret_cast<const TELEGRAM_COMMON2 *>(p)`. -/
def TELEGRAM_COMMON2.read (p : Buffer) : TELEGRAM_COMMON2 :=
  { protocol_version := read_uint16_t p
    status := read_uint16_t (p.plus 2)
    scan_number := read_uint32_t (p.plus 4)
    telegram_number := read_uint16_t (p.plus 8) }

/-- The value `*reinterpret_cast<const TELEGRAM_COMMON3 *>(p)`. -/
def TELEGRAM_COMMON3.read (p : Buffer) : TELEGRAM_COMMON3 := { type := read_uint16_t p }

/-- The value `*reinterpret_cast<const TELEGRAM_DISTANCE *>(p)`. -/
def TELEGRAM_DISTANCE.read (p : Buffer) : TELEGRAM_DISTANCE := { type := read_uint16_t p }

/-- The value `*reinterpret_cast<const TELEGRAM_TAIL *>(p)`. -/
def TELEGRAM_TAIL.read (p : Buffer) : TELEGRAM_TAIL := { crc := read_uint16_t p }

/-- The constant `JUNK_SIZE` of `enum TELEGRAM_COMMON_HS`. -/
def JUNK_SIZE : Int := 4

/-- The constant `IO` of `enum TELEGRAM_COMMON_TYPES`. -/
def IO_TYPE : Nat := 0xAAAA
/-- The constant `DISTANCE` of `enum TELEGRAM_COMMON_TYPES`. -/
def DISTANCE : Nat := 0xBBBB
/-- The constant `REFLEXION` of `enum TELEGRAM_COMMON_TYPES`. -/
def REFLEXION : Nat := 0xCCCC

/-- The `ntoh` overload for `TELEGRAM_COMMON1`. -/
def ntoh_COMMON1 (tc : TELEGRAM_COMMON1) : TELEGRAM_COMMON1 :=
  { tc with
    reply_telegram := ntohl tc.reply_telegram
    trigger_result := ntohs tc.trigger_result
    size := ntohs tc.size }

/-- The `ntoh` overload for `TELEGRAM_DISTANCE`. -/
def ntoh_DISTANCE (tc : TELEGRAM_DISTANCE) : TELEGRAM_DISTANCE :=
  { type := ntohs tc.type }

/-- The `ntoh` overload for `TELEGRAM_TAIL`: its body is commented out. -/
def ntoh_TAIL (tc : TELEGRAM_TAIL) : TELEGRAM_TAIL := tc

/-! ## Header pattern check -/

/-- The local array `TELEGRAM_COMMON_PATTERN_EQ` of `check`. -/
def TELEGRAM_COMMON_PATTERN_EQ (DEVICE_ADDR : uint8_t) : List Nat :=
  [0, 0, 0, 0, 0, 0, 0, 0, 0xFF, (0 &&& DEVICE_ADDR.val) % 256]

/-- The local array `TELEGRAM_COMMON_PATTERN_OR` of `check`. -/
def TELEGRAM_COMMON_PATTERN_OR : List Nat :=
  [0, 0, 0, 0, 0, 0, 0xff, 0xff, 0, 0xff]

/-- The operator `~` on a byte promoted to `int`, as a 32-bit pattern. -/
def bitNot (x : Nat) : Nat := 4294967295 - x

/-- The function `check`: the loop returns false at the first index whose
masked byte differs from the pattern, and true when there is none. -/
def check (tc : TELEGRAM_COMMON1) (DEVICE_ADDR : uint8_t) : Bool :=
  (List.range 10).all fun i =>
    !((TELEGRAM_COMMON_PATTERN_EQ DEVICE_ADDR).getD i 0
        != (tc.bytes i &&& bitNot (TELEGRAM_COMMON_PATTERN_OR.getD i 0)))

/-! ## Parser state and `parseHeader` -/

/-- The data members of `class TelegramParser`. -/
structure TelegramParser where
  tc1_ : TELEGRAM_COMMON1
  tc2_ : TELEGRAM_COMMON2
  tc3_ : TELEGRAM_COMMON3
  td_ : TELEGRAM_DISTANCE
  size_field_start_byte_ : Int
  crc_bytes_in_size_ : Int
  user_data_size_ : Int
deriving DecidableEq, Repr

/-- The locals `tt` and `crc` of `parseHeader` together with the parser state,
as left by one size hypothesis. -/
structure Probe where
  s : TelegramParser
  tt : TELEGRAM_TAIL
  crc : Nat

/-- One size hypothesis of `parseHeader`: the block that the source writes out
three times (lines 265-284, 291-307 and 313-330), for the given values of
`size_field_start_byte_` and `crc_bytes_in_size_`. -/
def probe (createCRC : Buffer → Int → Nat) (s : TelegramParser) (buffer : Buffer)
    (start crcb : Int) : Probe :=
  let s := { s with size_field_start_byte_ := start, crc_bytes_in_size_ := crcb }
  -- sizeof(TELEGRAM_COMMON1) + sizeof(TELEGRAM_COMMON2) - size_field_start_byte_ + crc_bytes_in_size_
  let counted : Nat :=
    (to_size_t (((10 + 10 : Nat) : Int) - (to_size_t s.size_field_start_byte_ : Int))
      + to_size_t s.crc_bytes_in_size_) % size_t_mod
  let s := { s with
    user_data_size_ := to_int (to_size_t (((2 * s.tc1_.size : Nat) : Int) - (counted : Int))) }
  let full_data_size : Int := to_int ((10 + 10 + to_size_t s.user_data_size_ + 2) % size_t_mod)
  let tt := ntoh_TAIL
    (TELEGRAM_TAIL.read (buffer.plus ((10 + 10 + to_size_t s.user_data_size_) % size_t_mod)))
  let crc := to_uint16_t
    (createCRC (buffer.plus JUNK_SIZE.toNat)
      (to_int (to_size_t ((to_size_t (full_data_size - JUNK_SIZE) : Int) - 2))))
  { s := s, tt := tt, crc := crc }

/-- The method `parseHeader`; the result pairs the returned flag with the
parser state after the call. -/
def parseHeader (createCRC : Buffer → Int → Nat) (s : TelegramParser) (buffer : Buffer)
    (max_size : Nat) (DEVICE_ADDR : uint8_t) : Bool × TelegramParser :=
  if 10 > max_size then (false, s) else
  let s := { s with tc1_ := TELEGRAM_COMMON1.read buffer }
  if !check s.tc1_ DEVICE_ADDR then (false, s) else
  let s := { s with tc1_ := ntoh_COMMON1 s.tc1_ }
  let s := { s with tc2_ := TELEGRAM_COMMON2.read (buffer.plus 10) }
  let s := { s with tc3_ := TELEGRAM_COMMON3.read (buffer.plus (10 + 10)) }
  let r : Probe :=
    if s.tc2_.protocol_version == 0x102 then
      probe createCRC s buffer 4 2
    else
      let r2 := probe createCRC s buffer 8 2
      if r2.tt.crc != r2.crc then probe createCRC r2.s buffer 12 0 else r2
  let s := r.s
  if (10 + 10 + to_size_t s.user_data_size_ + 2) % size_t_mod > max_size then (false, s) else
  if r.tt.crc != r.crc then (false, s) else
  let s := { s with td_ := { type := 0 } }
  if s.tc3_.type == IO_TYPE then (true, s)
  else if s.tc3_.type == DISTANCE then
    (true, { s with td_ := ntoh_DISTANCE (TELEGRAM_DISTANCE.read (buffer.plus (10 + 10 + 2))) })
  else if s.tc3_.type == REFLEXION then (true, s)
  else (false, s)

/-- The method `isDist`. -/
def isDist (s : TelegramParser) : Bool := s.tc3_.type == DISTANCE

/-- The method `getField`. -/
def getField (s : TelegramParser) : Int :=
  if s.td_.type == 0x1111 then 1
  else if s.td_.type == 0x2222 then 2
  else if s.td_.type == 0x3333 then 3
  else if s.td_.type == 0x4444 then 4
  else if s.td_.type == 0x5555 then 5
  else -1

/-- The method `getCompletePacketSize`. -/
def getCompletePacketSize (s : TelegramParser) : Int :=
  to_int ((10 + 10 + to_size_t s.user_data_size_ + 2) % size_t_mod)

/-- The method `readDistRaw`; the result is the content of `res` after the
call. -/
def readDistRaw (s : TelegramParser) (buffer : Buffer) (res : List Int) : List Int :=
  -- res.clear()
  let res : List Int := res.take 0
  if !isDist s then res else
  let num_points : Nat :=
    to_size_t ((to_size_t ((to_size_t s.user_data_size_ : Int) - 2) : Int) - 2) / 2
  res ++ (List.range num_points).map fun i =>
    ((read_uint16_t (buffer.plus ((10 + 10 + 2 + 2 + i * 2 % size_t_mod) % size_t_mod)) : Nat) : Int)

/-- A parser as the constructor leaves it, with the unions zeroed. -/
def TelegramParser.init : TelegramParser :=
  { tc1_ := ⟨0, 0, 0, 0, 0⟩, tc2_ := ⟨0, 0, 0, 0⟩, tc3_ := ⟨0⟩, td_ := ⟨0⟩
    size_field_start_byte_ := 0, crc_bytes_in_size_ := 0, user_data_size_ := 0 }

/-- A stand-in checksum for closed instances: the byte sum of the `Size` bytes
at `ptrData`, seeded with `0xFFFF`. It is not the device's CRC, whose
definition is not part of the header. -/
def sumCRC (ptrData : Buffer) (Size : Int) : Nat :=
  (List.range Size.toNat).foldl (fun acc i => acc + (ptrData i).val) 0xFFFF

/-! ## Sample telegrams for closed instances -/

/-- A compatibility-mode Distance telegram (declared size 13 words, sector 1,
points `0x0005` and `0x2005`), closed with `sumCRC`. -/
def sampleCompat : List uint8_t :=
  [0, 0, 0, 0, 0, 0, 0, 13, 0xFF, 7, 2, 1, 0, 0, 1, 2, 3, 4, 5, 6,
   0xBB, 0xBB, 0x11, 0x11, 5, 0, 5, 0x20, 236, 2]

/-- The telegram `sampleCompat` with its last CRC byte corrupted. -/
def sampleCompatBadCRC : List uint8_t :=
  [0, 0, 0, 0, 0, 0, 0, 13, 0xFF, 7, 2, 1, 0, 0, 1, 2, 3, 4, 5, 6,
   0xBB, 0xBB, 0x11, 0x11, 5, 0, 5, 0x20, 236, 3]

/-- A new-protocol Distance telegram under the layout without optional fields
(declared size 11 words, sector 2), closed with `sumCRC`. -/
def samplePlain : List uint8_t :=
  [0, 0, 0, 0, 0, 0, 0, 11, 0xFF, 7, 3, 1, 0, 0, 1, 2, 3, 4, 5, 6,
   0xBB, 0xBB, 0x22, 0x22, 5, 0, 5, 0x20, 13, 3]

/-- A new-protocol Distance telegram under the layout with optional fields
(declared size 8 words, sector 3), closed with `sumCRC`. -/
def sampleOptional : List uint8_t :=
  [0, 0, 0, 0, 0, 0, 0, 8, 0xFF, 7, 3, 1, 0, 0, 1, 2, 3, 4, 5, 6,
   0xBB, 0xBB, 0x33, 0x33, 5, 0, 5, 0x20, 44, 3]

/-- A compatibility-mode telegram with the unknown class tag `0xDDDD` and a
matching `sumCRC`. -/
def sampleUnknownClass : List uint8_t :=
  [0, 0, 0, 0, 0, 0, 0, 13, 0xFF, 7, 2, 1, 0, 0, 1, 2, 3, 4, 5, 6,
   0xDD, 0xDD, 0x11, 0x11, 5, 0, 5, 0x20, 48, 3]

/-! ## Vocabulary of the statements -/

/-- The declared size in 16-bit words as `parseHeader` uses it after `ntoh`:
bytes 6 and 7 in network order. -/
def declared_size_words (buffer : Buffer) : Nat := 256 * (buffer 6).val + (buffer 7).val

/-- The 16-bit value stored at a byte offset, read in host order with no swap. -/
def word16 (buffer : Buffer) (off : Nat) : Nat := (buffer off).val + 256 * (buffer (off + 1)).val

/-- The three size layouts of the resolver. -/
inductive Layout where
  | compat
  | plain
  | optional
deriving DecidableEq, Repr

/-- The value of `size_field_start_byte_` under a layout. -/
def Layout.start : Layout → Int
  | .compat => 4
  | .plain => 8
  | .optional => 12

/-- The value of `crc_bytes_in_size_` under a layout. -/
def Layout.crcb : Layout → Int
  | .compat => 2
  | .plain => 2
  | .optional => 0

/-- The number of bytes outside the payload that the declared size counts
under a layout: `20 - start + crcb`. -/
def Layout.counted : Layout → Nat
  | .compat => 18
  | .plain => 14
  | .optional => 8

/-- The CRC test of a layout on a buffer: the stored 16-bit tail against the
truncated `createCRC` of the bytes from offset 4. -/
def crcTest (createCRC : Buffer → Int → Nat) (buffer : Buffer) (l : Layout) : Bool :=
  word16 buffer (2 * declared_size_words buffer + 20 - l.counted)
    == createCRC (buffer.plus 4) (2 * (declared_size_words buffer : Int) + 16 - l.counted) % 65536

/-- The layout whose sizes `parseHeader` holds when it reaches the size bound. -/
def selected (createCRC : Buffer → Int → Nat) (buffer : Buffer) : Layout :=
  if word16 buffer 10 = 0x102 then .compat
  else if crcTest createCRC buffer .plain then .plain
  else .optional

/-- The parser state when `parseHeader` reaches the size bound. -/
def sized (createCRC : Buffer → Int → Nat) (s : TelegramParser) (buffer : Buffer) :
    TelegramParser :=
  { tc1_ := ntoh_COMMON1 (TELEGRAM_COMMON1.read buffer)
    tc2_ := TELEGRAM_COMMON2.read (buffer.plus 10)
    tc3_ := TELEGRAM_COMMON3.read (buffer.plus 20)
    td_ := s.td_
    size_field_start_byte_ := (selected createCRC buffer).start
    crc_bytes_in_size_ := (selected createCRC buffer).crcb
    user_data_size_ := 2 * (declared_size_words buffer : Int) - (selected createCRC buffer).counted }


/-- Whether the class tag read at bytes 20..21 is one of the three known tags. -/
def knownClass (buffer : Buffer) : Bool :=
  word16 buffer 20 == IO_TYPE || word16 buffer 20 == DISTANCE || word16 buffer 20 == REFLEXION


/-- The equality pattern of the header validator as the specification lists it. -/
def pattern_eq : List Nat := [0, 0, 0, 0, 0, 0, 0, 0, 0xFF, 0]

/-- The don't-care mask of the header validator as the specification lists it. -/
def pattern_or : List Nat := [0, 0, 0, 0, 0, 0, 0xFF, 0xFF, 0, 0xFF]

/-- The specification's header test on a 10-byte block: at every index `i` in
`0..9`, `pattern_eq[i] == (w[i] & ~pattern_or[i])`, with `~` the complement of a
byte. -/
def patternMatch (w : Buffer) : Bool :=
  (List.range 10).all fun i =>
    pattern_eq.getD i 0 == ((w i).val &&& (255 - pattern_or.getD i 0))

/-- The byte `b` with bit `k` flipped. -/
def flipBit (b : uint8_t) (k : Nat) : uint8_t := Fin.ofNat (b.val ^^^ 2 ^ k)

/-- The header block `w` with byte `i` replaced by `v`. -/
def setByte (w : Buffer) (i : Nat) (v : uint8_t) : Buffer :=
  fun j => if j = i then v else w j

/-- A header block that `check` accepts: size 13 words, device address 7. -/
def sampleHeader : List uint8_t := [0, 0, 0, 0, 0, 0, 0, 13, 0xFF, 7]

/-! ## Encoder of synthetic telegrams -/

/-- The telegram classes of the specification. -/
inductive TelegramClass where
  | io
  | distance
  | reflexion
deriving DecidableEq, Repr

/-- The two bytes of a 16-bit point value, low byte first. -/
def pointBytes : List Nat → List uint8_t
  | [] => []
  | p :: ps => Fin.ofNat (p % 256) :: Fin.ofNat (p / 256) :: pointBytes ps

/-- The payload of a synthetic telegram: the class tag, and for a Distance
telegram the tag `0x1111 * sector` of the sector followed by the points. -/
def payloadBytes (cls : TelegramClass) (sector : Nat) (points : List Nat) : List uint8_t :=
  match cls with
  | .io => [0xAA, 0xAA]
  | .distance =>
      [0xBB, 0xBB, Fin.ofNat (0x11 * sector), Fin.ofNat (0x11 * sector)] ++ pointBytes points
  | .reflexion => [0xCC, 0xCC]

/-- The declared word count of a telegram with the given payload length, as
the layout counts it. -/
def declaredWords (l : Layout) (payloadLen : Nat) : Nat := (payloadLen + l.counted) / 2

/-- A synthetic telegram: header (six zero bytes, big-endian declared word
count, `0xFF`, device address), the 10-byte meta block, the payload, and the
given CRC value in the two trailing bytes, low byte first. -/
def encode (l : Layout) (device : uint8_t) (metaBlock : List uint8_t) (cls : TelegramClass)
    (sector : Nat) (points : List Nat) (crc : Nat) : List uint8_t :=
  [0, 0, 0, 0, 0, 0,
    Fin.ofNat (declaredWords l (payloadBytes cls sector points).length / 256),
    Fin.ofNat (declaredWords l (payloadBytes cls sector points).length % 256),
    0xFF, device]
  ++ metaBlock ++ payloadBytes cls sector points
  ++ [Fin.ofNat (crc % 256), Fin.ofNat (crc / 256)]

/-- A new-protocol Distance telegram built under the layout with optional
fields, with three points of which the first happens to equal the `sumCRC` of
the bytes before it. -/
def sampleCollision : List uint8_t :=
  encode .optional 7 [3, 1, 0, 0, 1, 2, 3, 4, 5, 6] .distance 1 [703, 5, 8197] 938

/-- A checksum that reads only the `Size` bytes it is given. -/
def ReadsOnlyItsBytes (createCRC : Buffer → Int → Nat) : Prop :=
  ∀ (p q : Buffer) (Size : Int), (∀ i : Nat, (i : Int) < Size → p i = q i) →
    createCRC p Size = createCRC q Size

/-- The first 24 bytes of the colliding telegrams: header with 9 declared
words, meta block of the new protocol, Distance tag and sector 1. -/
def collisionHead : List uint8_t :=
  [0, 0, 0, 0, 0, 0, 0, 9, 0xFF, 7, 3, 1, 0, 0, 1, 2, 3, 4, 5, 6, 0xBB, 0xBB, 0x11, 0x11]

/-! ## Point values and further sample inputs -/

/-- The bit-field `distance` of `TELEGRAM_S300_DIST_2B` as a view of `val16`
(bit-fields are allocated from the least significant bit on the little-endian
host): bits 0..12. -/
def distance (val16 : Nat) : Nat := val16 % 8192

/-- The bit-field `bit13` of `TELEGRAM_S300_DIST_2B` as a view of `val16`. -/
def bit13 (val16 : Nat) : Nat := val16 / 8192 % 2

/-- The bit-field `protective` of `TELEGRAM_S300_DIST_2B` as a view of `val16`. -/
def protective (val16 : Nat) : Nat := val16 / 16384 % 2

/-- The bit-field `warn_field` of `TELEGRAM_S300_DIST_2B` as a view of `val16`. -/
def warn_field (val16 : Nat) : Nat := val16 / 32768 % 2

/-- A compatibility-mode telegram of 24 bytes whose payload is the Distance
class tag alone (declared size 10 words), closed with `sumCRC`. -/
def sampleTagOnly : List uint8_t :=
  [0, 0, 0, 0, 0, 0, 0, 10, 0xFF, 7, 2, 1, 0, 0, 1, 2, 3, 4, 5, 6, 0xBB, 0xBB, 157, 2]

/-- A window of 14 bytes (header with declared size 5 words, version `02 01`,
and the `sumCRC` of bytes 4..11 at bytes 12..13), followed in memory by eight
bytes outside the window, the last two of which read as the I/O class tag. -/
def sampleShortWindow : List uint8_t :=
  [0, 0, 0, 0, 0, 0, 0, 5, 0xFF, 7, 2, 1, 13, 1, 0, 0, 0, 0, 0, 0, 0xAA, 0xAA]

/-- The compatibility-mode scenario with the declared size that makes the user
payload 4 bytes (11 words), carrying the tags, the points `0x0005`, `0x2005`
and the `sumCRC` of bytes 4..27 at its end. -/
def sampleScenarioFour : List uint8_t :=
  [0, 0, 0, 0, 0, 0, 0, 11, 0xFF, 7, 2, 1, 0, 0, 1, 2, 3, 4, 5, 6,
   0xBB, 0xBB, 0x11, 0x11, 5, 0, 5, 0x20, 234, 2]

/-- Ten bytes that do not match the header pattern. -/
def sampleBadHeader : List uint8_t := [1, 2, 3, 4, 5, 6, 7, 8, 9, 10]

/-- A header block that `check` accepts, followed by the new-protocol version
bytes `01 02`. -/
def sampleVersionSwapped : List uint8_t := [0, 0, 0, 0, 0, 0, 0, 13, 0xFF, 7, 1, 2]

/-- A compatibility-mode I/O telegram of 24 bytes (declared size 10 words),
closed with `sumCRC`. -/
def sampleIO : List uint8_t :=
  [0, 0, 0, 0, 0, 0, 0, 10, 0xFF, 7, 2, 1, 0, 0, 1, 2, 3, 4, 5, 6, 0xAA, 0xAA, 123, 2]

/-! ## Bytes read by `parseHeader` -/

/-- The byte ranges `[first, last)` of `buffer` that one size hypothesis of
`parseHeader` touches after `probe` has set the sizes: the two bytes read into
`tt`, then the range handed to `createCRC`. -/
def probeReads (s : TelegramParser) : List (Nat × Nat) :=
  let full_data_size : Int := to_int ((10 + 10 + to_size_t s.user_data_size_ + 2) % size_t_mod)
  [((10 + 10 + to_size_t s.user_data_size_) % size_t_mod,
    (10 + 10 + to_size_t s.user_data_size_) % size_t_mod + 2),
   (JUNK_SIZE.toNat,
    JUNK_SIZE.toNat
      + (to_int (to_size_t ((to_size_t (full_data_size - JUNK_SIZE) : Int) - 2))).toNat)]

/-- The method `parseHeader` with the byte ranges `[first, last)` of `buffer`
that it touches, in program order: the same control flow as `parseHeader`,
each read of the source adding its range to the trace. -/
def parseHeaderTraced (createCRC : Buffer → Int → Nat) (s : TelegramParser) (buffer : Buffer)
    (max_size : Nat) (DEVICE_ADDR : uint8_t) : (Bool × TelegramParser) × List (Nat × Nat) :=
  if 10 > max_size then ((false, s), []) else
  let s := { s with tc1_ := TELEGRAM_COMMON1.read buffer }
  let t : List (Nat × Nat) := [(0, 10)]
  if !check s.tc1_ DEVICE_ADDR then ((false, s), t) else
  let s := { s with tc1_ := ntoh_COMMON1 s.tc1_ }
  let s := { s with tc2_ := TELEGRAM_COMMON2.read (buffer.plus 10) }
  let t := t ++ [(10, 10 + 10)]
  let s := { s with tc3_ := TELEGRAM_COMMON3.read (buffer.plus (10 + 10)) }
  let t := t ++ [(10 + 10, 10 + 10 + 2)]
  let rt : Probe × List (Nat × Nat) :=
    if s.tc2_.protocol_version == 0x102 then
      (probe createCRC s buffer 4 2, t ++ probeReads (probe createCRC s buffer 4 2).s)
    else
      let r2 := probe createCRC s buffer 8 2
      let t := t ++ probeReads r2.s
      if r2.tt.crc != r2.crc then
        (probe createCRC r2.s buffer 12 0, t ++ probeReads (probe createCRC r2.s buffer 12 0).s)
      else (r2, t)
  let r := rt.1
  let t := rt.2
  let s := r.s
  if (10 + 10 + to_size_t s.user_data_size_ + 2) % size_t_mod > max_size then ((false, s), t) else
  if r.tt.crc != r.crc then ((false, s), t) else
  let s := { s with td_ := { type := 0 } }
  if s.tc3_.type == IO_TYPE then ((true, s), t)
  else if s.tc3_.type == DISTANCE then
    ((true, { s with td_ := ntoh_DISTANCE (TELEGRAM_DISTANCE.read (buffer.plus (10 + 10 + 2))) }),
      t ++ [(10 + 10 + 2, 10 + 10 + 2 + 2)])
  else if s.tc3_.type == REFLEXION then ((true, s), t)
  else ((false, s), t)

/-! ## Baud-rate lookup (`SerialIO.cpp`) -/

/-- The speed macros of `termios.h` that `getBaudrateCode` uses. Their values
come from the system header, not from the repository, so they are parameters
of the model. -/
structure Termios where
  B0 : Int
  B50 : Int
  B75 : Int
  B110 : Int
  B134 : Int
  B150 : Int
  B200 : Int
  B300 : Int
  B600 : Int
  B1200 : Int
  B1800 : Int
  B2400 : Int
  B4800 : Int
  B9600 : Int
  B19200 : Int
  B38400 : Int
  B57600 : Int
  B115200 : Int
  B230400 : Int
  B460800 : Int
  B500000 : Int
  B576000 : Int
  B921600 : Int
  B1000000 : Int

/-- The local array `baudTable` of `getBaudrateCode`. -/
def baudTable : List Int :=
  [0, 50, 75, 110, 134, 150, 200, 300, 600, 1200, 1800, 2400, 4800,
    9600, 19200, 38400, 57600, 115200, 230400, 460800, 500000, 576000, 921600, 1000000]

/-- The local array `baudCodes` of `getBaudrateCode`. -/
def baudCodes (t : Termios) : List Int :=
  [t.B0, t.B50, t.B75, t.B110, t.B134, t.B150, t.B200, t.B300, t.B600, t.B1200, t.B1800,
    t.B2400, t.B4800,
    t.B9600, t.B19200, t.B38400, t.B57600, t.B115200, t.B230400, t.B460800, t.B500000,
    t.B576000, t.B921600, t.B1000000]

/-- The `for` loop of `getBaudrateCode` from index `i` on. The state is the pair
`(ret, *iBaudrateCode)`; a match stores the code, sets `ret` and leaves the loop.
The first argument bounds the number of iterations still allowed, and `none`
says that this bound was used up before the loop ended. -/
def getBaudrateCodeLoop (t : Termios) (iBaudrate : Int) (iBaudsLen : Nat) :
    Nat → Nat → Bool × Int → Option (Bool × Int)
  | 0, _, _ => none
  | fuel + 1, i, st =>
    if i < iBaudsLen then
      if baudTable.getD i 0 == iBaudrate then some (true, (baudCodes t).getD i 0)
      else getBaudrateCodeLoop t iBaudrate iBaudsLen fuel (i + 1) st
    else some st

/-- The function `getBaudrateCode`; the result pairs the returned flag with the
value left in `*iBaudrateCode`. The loop is given one iteration more than the
table has entries, for the test that ends it. -/
def getBaudrateCode (t : Termios) (iBaudrate : Int) : Option (Bool × Int) :=
  let iBaudsLen : Nat := baudTable.length
  getBaudrateCodeLoop t iBaudrate iBaudsLen (iBaudsLen + 1) 0 (false, t.B38400)

/-- The speed macros with the values of Linux (`asm-generic/termbits.h`), for
closed instances. -/
def termiosLinux : Termios :=
  { B0 := 0, B50 := 1, B75 := 2, B110 := 3, B134 := 4, B150 := 5, B200 := 6, B300 := 7,
    B600 := 8, B1200 := 9, B1800 := 10, B2400 := 11, B4800 := 12, B9600 := 13, B19200 := 14,
    B38400 := 15, B57600 := 4097, B115200 := 4098, B230400 := 4099, B460800 := 4100,
    B500000 := 4101, B576000 := 4102, B921600 := 4103, B1000000 := 4104 }

/-! ## Arithmetic of the implicit conversions -/

theorem ntohs_read_uint16_t (p : Buffer) :
    ntohs (read_uint16_t p) = 256 * (p 0).val + (p 1).val := by
  unfold ntohs read_uint16_t
  omega

theorem to_size_t_ofNat (n : Nat) (h : n < 18446744073709551616) : to_size_t (n : Int) = n := by
  unfold to_size_t
  omega

theorem counted_4_2 :
    (to_size_t (((10 + 10 : Nat) : Int) - (to_size_t 4 : Int)) + to_size_t 2) % size_t_mod = 18 := by
  decide

theorem counted_8_2 :
    (to_size_t (((10 + 10 : Nat) : Int) - (to_size_t 8 : Int)) + to_size_t 2) % size_t_mod = 14 := by
  decide

theorem counted_12_0 :
    (to_size_t (((10 + 10 : Nat) : Int) - (to_size_t 12 : Int)) + to_size_t 0) % size_t_mod = 8 := by
  decide

theorem user_data_size_val (n k : Nat) (hn : n < 65536) (hk : k ≤ 20) :
    to_int (to_size_t (((2 * n : Nat) : Int) - (k : Int))) = 2 * (n : Int) - k := by
  unfold to_int to_size_t
  split <;> omega

theorem full_size_val (u : Int) (h1 : -20 ≤ u) (h2 : u < 200000) :
    (10 + 10 + to_size_t u + 2) % size_t_mod = (u + 22).toNat := by
  unfold to_size_t size_t_mod
  omega

theorem tail_offset_val (u : Int) (h1 : -20 ≤ u) (h2 : u < 200000) :
    (10 + 10 + to_size_t u) % size_t_mod = (u + 20).toNat := by
  unfold to_size_t size_t_mod
  omega

theorem crc_size_val (u : Int) (h1 : -20 ≤ u) (h2 : u < 200000) :
    to_int (to_size_t ((to_size_t (to_int ((10 + 10 + to_size_t u + 2) % size_t_mod) - 4) : Int) - 2)) = u + 16 := by
  unfold to_int to_size_t size_t_mod
  split <;> split <;> omega

/-! ## Closed form of `parseHeader` -/

theorem probe_eq (createCRC : Buffer → Int → Nat) (s : TelegramParser) (buffer : Buffer)
    (start crcb : Int) (k : Nat) (hk : k ≤ 20)
    (hc : (to_size_t (((10 + 10 : Nat) : Int) - (to_size_t start : Int)) + to_size_t crcb)
            % size_t_mod = k)
    (hn : s.tc1_.size < 65536) :
    probe createCRC s buffer start crcb =
      { s := { s with
                size_field_start_byte_ := start
                crc_bytes_in_size_ := crcb
                user_data_size_ := 2 * (s.tc1_.size : Int) - k }
        tt := { crc := read_uint16_t (buffer.plus (2 * s.tc1_.size + 20 - k)) }
        crc := createCRC (buffer.plus 4) (2 * (s.tc1_.size : Int) + 16 - k) % 65536 } := by
  have hu := user_data_size_val s.tc1_.size k hn hk
  have h1 : (-20 : Int) ≤ 2 * (s.tc1_.size : Int) - k := by omega
  have h2 : 2 * (s.tc1_.size : Int) - k < 200000 := by omega
  have hf := crc_size_val _ h1 h2
  have ht := tail_offset_val _ h1 h2
  have e1 : (2 * (s.tc1_.size : Int) - k + 20).toNat = 2 * s.tc1_.size + 20 - k := by omega
  have e2 : 2 * (s.tc1_.size : Int) - k + 16 = 2 * (s.tc1_.size : Int) + 16 - k := by omega
  simp only [probe, hc, hu, hf, ht, e1, e2, ntoh_TAIL, to_uint16_t, JUNK_SIZE]
  rfl

theorem size_after_ntoh (buffer : Buffer) :
    (ntoh_COMMON1 (TELEGRAM_COMMON1.read buffer)).size = declared_size_words buffer := by
  simp only [ntoh_COMMON1, TELEGRAM_COMMON1.read, declared_size_words, Buffer.plus, ntohs,
    read_uint16_t, Nat.add_zero, Nat.reduceAdd]
  omega

theorem probe_layout (createCRC : Buffer → Int → Nat) (s : TelegramParser) (buffer : Buffer)
    (l : Layout) (hn : s.tc1_.size < 65536) :
    probe createCRC s buffer l.start l.crcb =
      { s := { s with
                size_field_start_byte_ := l.start
                crc_bytes_in_size_ := l.crcb
                user_data_size_ := 2 * (s.tc1_.size : Int) - l.counted }
        tt := { crc := read_uint16_t (buffer.plus (2 * s.tc1_.size + 20 - l.counted)) }
        crc := createCRC (buffer.plus 4) (2 * (s.tc1_.size : Int) + 16 - l.counted) % 65536 } := by
  cases l
  · exact probe_eq createCRC s buffer 4 2 18 (by decide) counted_4_2 hn
  · exact probe_eq createCRC s buffer 8 2 14 (by decide) counted_8_2 hn
  · exact probe_eq createCRC s buffer 12 0 8 (by decide) counted_12_0 hn

theorem declared_size_words_lt (buffer : Buffer) : declared_size_words buffer < 65536 := by
  unfold declared_size_words
  omega

/-- Closed form of `parseHeader`. -/
theorem parseHeader_closed (createCRC : Buffer → Int → Nat) (s : TelegramParser)
    (buffer : Buffer) (max_size : Nat) (DEVICE_ADDR : uint8_t) :
    parseHeader createCRC s buffer max_size DEVICE_ADDR =
      if max_size < 10 then (false, s)
      else if check (TELEGRAM_COMMON1.read buffer) DEVICE_ADDR = false then
        (false, { s with tc1_ := TELEGRAM_COMMON1.read buffer })
      else if max_size <
          2 * declared_size_words buffer + 22 - (selected createCRC buffer).counted then
        (false, sized createCRC s buffer)
      else if crcTest createCRC buffer (selected createCRC buffer) = false then
        (false, sized createCRC s buffer)
      else if word16 buffer 20 = IO_TYPE then
        (true, { sized createCRC s buffer with td_ := { type := 0 } })
      else if word16 buffer 20 = DISTANCE then
        (true, { sized createCRC s buffer with
                  td_ := { type := 256 * (buffer 22).val + (buffer 23).val } })
      else if word16 buffer 20 = REFLEXION then
        (true, { sized createCRC s buffer with td_ := { type := 0 } })
      else (false, { sized createCRC s buffer with td_ := { type := 0 } }) := by
  have hn := declared_size_words_lt buffer
  have hsz := size_after_ntoh buffer
  unfold parseHeader
  by_cases h10 : max_size < 10
  · have h10b : 10 > max_size := h10
    simp only [h10, h10b, if_true]
  · have h10b : ¬ (10 > max_size) := h10
    simp only [h10, h10b, if_false]
    by_cases hc : check (TELEGRAM_COMMON1.read buffer) DEVICE_ADDR = true
    · simp only [hc, Bool.not_true, Bool.false_eq_true, if_false]
      have p1 := fun t (h : t.tc1_.size < 65536) => probe_layout createCRC t buffer .compat h
      have p2 := fun t (h : t.tc1_.size < 65536) => probe_layout createCRC t buffer .plain h
      have p3 := fun t (h : t.tc1_.size < 65536) => probe_layout createCRC t buffer .optional h
      simp only [Layout.start, Layout.crcb, Layout.counted] at p1 p2 p3
      rw [p1 _ (by simpa only [hsz] using hn), p2 _ (by simpa only [hsz] using hn)]
      simp only [hsz]
      have e20 : (10 + 10 : Nat) = 20 := rfl
      have e22 : (10 + 10 + 2 : Nat) = 22 := rfl
      have hpv : (TELEGRAM_COMMON2.read (buffer.plus 10)).protocol_version = word16 buffer 10 := rfl
      have hty : (TELEGRAM_COMMON3.read (buffer.plus 20)).type = word16 buffer 20 := rfl
      have htd : ntoh_DISTANCE (TELEGRAM_DISTANCE.read (buffer.plus 22))
          = { type := 256 * (buffer 22).val + (buffer 23).val } := by
        simp only [ntoh_DISTANCE, TELEGRAM_DISTANCE.read, ntohs_read_uint16_t]
        rfl
      have hrd : ∀ off, read_uint16_t (buffer.plus off) = word16 buffer off := fun _ => rfl
      have hfull : ∀ k : Nat, k ≤ 20 →
          (20 + to_size_t (2 * (declared_size_words buffer : Int) - (k : Nat)) + 2) % size_t_mod
            = 2 * declared_size_words buffer + 22 - k := by
        intro k hk
        rw [full_size_val _ (by omega) (by omega)]
        omega
      have hTF : (true = false) = False := by simp
      have h18 := hfull 18 (by decide)
      have h14 := hfull 14 (by decide)
      have h8 := hfull 8 (by decide)
      simp only [e20, e22, hpv, htd, hrd, beq_iff_eq, bne_iff_ne, ne_eq, ite_not]
      by_cases hv : word16 buffer 10 = 258
      · have hsel : selected createCRC buffer = .compat := by
          simp only [selected, hv, if_true]
        simp only [hv, if_true, hsel, sized, Layout.start, Layout.crcb, Layout.counted, crcTest,
          h18, hty, gt_iff_lt, beq_eq_false_iff_ne, ne_eq, ite_not, hTF, if_false]
      · by_cases h2 : crcTest createCRC buffer .plain = true
        · have hsel : selected createCRC buffer = .plain := by
            simp only [selected, hv, if_false, h2, if_true]
          have h2b := h2
          simp only [crcTest, Layout.counted, beq_iff_eq] at h2b
          simp only [hv, if_false, h2b, if_true, hsel, sized, Layout.start, Layout.crcb,
            Layout.counted, crcTest, h14, hty, gt_iff_lt, beq_eq_false_iff_ne, ne_eq, ite_not, hTF, if_false]
        · have hsel : selected createCRC buffer = .optional := by
            simp only [selected, hv, if_false, h2]
            rfl
          have h2b := h2
          simp only [crcTest, Layout.counted, beq_iff_eq] at h2b
          rw [p3 _ (by simpa only [hsz] using hn)]
          simp only [hv, if_false, h2b, hsel, sized, Layout.start, Layout.crcb,
            Layout.counted, crcTest, h8, hty, hsz, hrd, gt_iff_lt, beq_eq_false_iff_ne, ne_eq,
            ite_not, hTF, if_false]
    · have hc2 : check (TELEGRAM_COMMON1.read buffer) DEVICE_ADDR = false := by
        simpa using hc
      simp only [hc2, Bool.not_false, if_true]

theorem parseHeader_accepts_iff (createCRC : Buffer → Int → Nat) (s : TelegramParser)
    (buffer : Buffer) (max_size : Nat) (DEVICE_ADDR : uint8_t) :
    (parseHeader createCRC s buffer max_size DEVICE_ADDR).1 = true ↔
      10 ≤ max_size ∧ check (TELEGRAM_COMMON1.read buffer) DEVICE_ADDR = true ∧
      2 * declared_size_words buffer + 22 - (selected createCRC buffer).counted ≤ max_size ∧
      crcTest createCRC buffer (selected createCRC buffer) = true ∧
      knownClass buffer = true := by
  rw [parseHeader_closed]
  simp only [knownClass, Bool.or_eq_true, beq_iff_eq]
  split_ifs <;> simp_all
  omega

theorem parseHeader_user_data_size (createCRC : Buffer → Int → Nat) (s : TelegramParser)
    (buffer : Buffer) (max_size : Nat) (DEVICE_ADDR : uint8_t)
    (h10 : 10 ≤ max_size) (hc : check (TELEGRAM_COMMON1.read buffer) DEVICE_ADDR = true) :
    (parseHeader createCRC s buffer max_size DEVICE_ADDR).2.user_data_size_ =
      2 * (declared_size_words buffer : Int) - (selected createCRC buffer).counted := by
  rw [parseHeader_closed]
  have h10b : ¬ max_size < 10 := by omega
  simp only [h10b, hc, if_false]
  split_ifs <;> simp_all [sized]

theorem counted_le (l : Layout) : l.counted ≤ 18 ∧ 8 ≤ l.counted := by
  cases l <;> simp [Layout.counted]

theorem getCompletePacketSize_of (s : TelegramParser) (n k : Nat) (hn : n < 65536) (hk : k ≤ 18)
    (h : s.user_data_size_ = 2 * (n : Int) - k) :
    getCompletePacketSize s = 2 * (n : Int) + 22 - k := by
  unfold getCompletePacketSize
  have e : (10 + 10 : Nat) = 20 := rfl
  rw [h, e, full_size_val _ (by omega) (by omega)]
  unfold to_int
  split <;> omega

theorem selected_compat (createCRC : Buffer → Int → Nat) (buffer : Buffer)
    (h : word16 buffer 10 = 0x102) : selected createCRC buffer = .compat := by
  simp only [selected, h, if_true]

theorem selected_plain (createCRC : Buffer → Int → Nat) (buffer : Buffer)
    (h : word16 buffer 10 ≠ 0x102) (h2 : crcTest createCRC buffer .plain = true) :
    selected createCRC buffer = .plain := by
  simp only [selected, h, if_false, h2, if_true]

theorem selected_optional (createCRC : Buffer → Int → Nat) (buffer : Buffer)
    (h : word16 buffer 10 ≠ 0x102) (h2 : crcTest createCRC buffer .plain = false) :
    selected createCRC buffer = .optional := by
  simp only [selected, h, if_false, h2]
  rfl

/-! ## The header pattern -/

set_option maxRecDepth 100000 in
theorem land_all_ones (b : uint8_t) : b.val &&& bitNot 0 = b.val := by
  revert b
  decide

set_option maxRecDepth 100000 in
theorem land_byte_mask (b : uint8_t) : b.val &&& 255 = b.val := by
  revert b
  decide

set_option maxRecDepth 100000 in
theorem land_high_ones (b : uint8_t) : b.val &&& bitNot 0xff = 0 := by
  revert b
  decide

theorem bytes_read (w : Buffer) (i : Nat) (h : i < 10) :
    (TELEGRAM_COMMON1.read w).bytes i = (w i).val := by
  have h0 := (w 0).isLt
  have h1 := (w 1).isLt
  have h2 := (w 2).isLt
  have h3 := (w 3).isLt
  have h4 := (w 4).isLt
  have h5 := (w 5).isLt
  have h6 := (w 6).isLt
  have h7 := (w 7).isLt
  have h8 := (w 8).isLt
  have h9 := (w 9).isLt
  interval_cases i <;>
    simp only [TELEGRAM_COMMON1.bytes, TELEGRAM_COMMON1.read, read_uint32_t, read_uint16_t,
      Buffer.plus, Nat.add_zero, Nat.reduceAdd] <;> omega

/-- The header pattern accepts exactly the blocks whose bytes 0..5 are zero and
whose byte 8 is `0xFF`. -/
theorem check_iff (w : Buffer) (d : uint8_t) :
    check (TELEGRAM_COMMON1.read w) d = true ↔
      ((w 0).val = 0 ∧ (w 1).val = 0 ∧ (w 2).val = 0 ∧ (w 3).val = 0 ∧ (w 4).val = 0
        ∧ (w 5).val = 0) ∧ (w 8).val = 255 := by
  simp only [check, List.all_eq_true, List.mem_range, Bool.not_eq_true', bne_eq_false_iff_eq]
  constructor
  · intro h
    have a0 := h 0 (by decide)
    have a1 := h 1 (by decide)
    have a2 := h 2 (by decide)
    have a3 := h 3 (by decide)
    have a4 := h 4 (by decide)
    have a5 := h 5 (by decide)
    have a8 := h 8 (by decide)
    simp only [bytes_read w _ (by decide : (0:Nat) < 10), bytes_read w _ (by decide : (1:Nat) < 10),
      bytes_read w _ (by decide : (2:Nat) < 10), bytes_read w _ (by decide : (3:Nat) < 10),
      bytes_read w _ (by decide : (4:Nat) < 10), bytes_read w _ (by decide : (5:Nat) < 10),
      bytes_read w _ (by decide : (8:Nat) < 10),
      TELEGRAM_COMMON_PATTERN_EQ, TELEGRAM_COMMON_PATTERN_OR, List.getD_cons_zero,
      List.getD_cons_succ, land_all_ones] at a0 a1 a2 a3 a4 a5 a8
    omega
  · rintro ⟨⟨b0, b1, b2, b3, b4, b5⟩, b8⟩ i hi
    rw [bytes_read w i hi]
    interval_cases i <;>
      simp only [TELEGRAM_COMMON_PATTERN_EQ, TELEGRAM_COMMON_PATTERN_OR, List.getD_cons_zero,
        List.getD_cons_succ, land_all_ones, land_high_ones, Nat.zero_and, Nat.zero_mod] <;>
      omega

/-! ## Synthetic telegrams -/

theorem parseHeader_tc3 (createCRC : Buffer → Int → Nat) (s : TelegramParser)
    (buffer : Buffer) (max_size : Nat) (DEVICE_ADDR : uint8_t)
    (h10 : 10 ≤ max_size) (hc : check (TELEGRAM_COMMON1.read buffer) DEVICE_ADDR = true) :
    (parseHeader createCRC s buffer max_size DEVICE_ADDR).2.tc3_.type = word16 buffer 20 := by
  rw [parseHeader_closed]
  have h10b : ¬ max_size < 10 := by omega
  have hTF : (true = false) = False := by simp
  simp only [h10b, hc, hTF, if_false]
  split_ifs <;> rfl

theorem parseHeader_td (createCRC : Buffer → Int → Nat) (s : TelegramParser)
    (buffer : Buffer) (max_size : Nat) (DEVICE_ADDR : uint8_t)
    (h : (parseHeader createCRC s buffer max_size DEVICE_ADDR).1 = true) :
    (parseHeader createCRC s buffer max_size DEVICE_ADDR).2.td_.type =
      if word16 buffer 20 = DISTANCE then 256 * (buffer 22).val + (buffer 23).val else 0 := by
  rw [parseHeader_closed] at h ⊢
  split_ifs at h ⊢ <;> simp_all [IO_TYPE, DISTANCE, REFLEXION]

theorem pointBytes_length (points : List Nat) : (pointBytes points).length = 2 * points.length := by
  induction points with
  | nil => rfl
  | cons p ps ih =>
    simp only [pointBytes, List.length_cons, ih]
    omega

theorem pointBytes_getD (points : List Nat) (tl : List uint8_t) (i : Nat)
    (hi : i < points.length) (hp : ∀ p ∈ points, p < 65536) :
    ((pointBytes points ++ tl).getD (2 * i) 0).val
      + 256 * ((pointBytes points ++ tl).getD (2 * i + 1) 0).val = points.getD i 0 := by
  induction points generalizing i with
  | nil => simp at hi
  | cons p ps ih =>
    cases i with
    | zero =>
      have hp0 : p < 65536 := hp p (List.mem_cons_self _ _)
      simp only [pointBytes, List.cons_append, Nat.mul_zero, List.getD_cons_zero,
        Nat.zero_add, List.getD_cons_succ, Fin.ofNat, Nat.reduceAdd]
      omega
    | succ j =>
      have e1 : 2 * (j + 1) = 2 * j + 1 + 1 := by omega
      have e2 : 2 * (j + 1) + 1 = 2 * j + 1 + 1 + 1 := by omega
      simp only [pointBytes, List.cons_append, e1, e2, List.getD_cons_succ]
      exact ih j (by simpa using hi) (fun q hq => hp q (List.mem_cons_of_mem _ hq))

theorem pointBytes_tail (points : List Nat) (tl : List uint8_t) (j : Nat) :
    (pointBytes points ++ tl).getD (2 * points.length + j) 0 = tl.getD j 0 := by
  rw [List.getD_append_right _ _ _ _ (by rw [pointBytes_length]; omega), pointBytes_length]
  congr 1
  omega

theorem list_length_ten (l : List uint8_t) (h : l.length = 10) :
    ∃ a0 a1 a2 a3 a4 a5 a6 a7 a8 a9, l = [a0, a1, a2, a3, a4, a5, a6, a7, a8, a9] := by
  match l, h with
  | [a0, a1, a2, a3, a4, a5, a6, a7, a8, a9], _ => exact ⟨a0, a1, a2, a3, a4, a5, a6, a7, a8, a9, rfl⟩

theorem accept_of_facts (createCRC : Buffer → Int → Nat) (s : TelegramParser) (B : Buffer)
    (max_size : Nat) (d : uint8_t) (l : Layout) (n len : Nat)
    (hcheck : check (TELEGRAM_COMMON1.read B) d = true)
    (hn : declared_size_words B = n)
    (h2n : 2 * n = len + l.counted)
    (hmax : 22 + len ≤ max_size)
    (hv : word16 B 10 = 258 ↔ l = .compat)
    (hcrc : word16 B (20 + len) = createCRC (B.plus 4) ((len : Int) + 16) % 65536)
    (hl3 : l = .optional → crcTest createCRC B .plain = false)
    (hclass : knownClass B = true) :
    (parseHeader createCRC s B max_size d).1 = true
    ∧ (parseHeader createCRC s B max_size d).2.user_data_size_ = (len : Int)
    ∧ getCompletePacketSize (parseHeader createCRC s B max_size d).2 = 22 + (len : Int) := by
  have hk := counted_le l
  have ht : crcTest createCRC B l = true := by
    have e1 : 2 * declared_size_words B + 20 - l.counted = 20 + len := by omega
    have e2 : 2 * (declared_size_words B : Int) + 16 - l.counted = (len : Int) + 16 := by omega
    simp only [crcTest, e1, e2, beq_iff_eq]
    exact hcrc
  have hsel : selected createCRC B = l := by
    cases l with
    | compat => exact selected_compat createCRC B (hv.mpr rfl)
    | plain =>
      exact selected_plain createCRC B (fun h => by have := hv.mp h; cases this) ht
    | optional =>
      exact selected_optional createCRC B (fun h => by have := hv.mp h; cases this) (hl3 rfl)
  have h10 : 10 ≤ max_size := by omega
  have hu := parseHeader_user_data_size createCRC s B max_size d h10 hcheck
  rw [hsel, hn] at hu
  have hnlt : n < 65536 := hn ▸ declared_size_words_lt B
  have hT := getCompletePacketSize_of _ n l.counted hnlt hk.1 hu
  refine ⟨?_, ?_, ?_⟩
  · rw [parseHeader_accepts_iff, hsel]
    refine ⟨h10, hcheck, by omega, ht, hclass⟩
  · rw [hu]
    omega
  · rw [hT]
    omega

theorem payloadBytes_length (cls : TelegramClass) (sector : Nat) (points : List Nat) :
    (payloadBytes cls sector points).length
      = if cls = .distance then 4 + 2 * points.length else 2 := by
  cases cls
  · rfl
  · simp only [payloadBytes, List.length_append, List.length_cons, List.length_nil,
      pointBytes_length, if_true]
  · rfl

theorem encode_at_payload (l : Layout) (device : uint8_t)
    (m0 m1 m2 m3 m4 m5 m6 m7 m8 m9 : uint8_t) (cls : TelegramClass)
    (sector : Nat) (points : List Nat) (crc : Nat) (j : Nat) :
    ofBytes (encode l device [m0, m1, m2, m3, m4, m5, m6, m7, m8, m9] cls sector points crc)
        (j + 20)
      = (payloadBytes cls sector points
          ++ [Fin.ofNat (crc % 256), Fin.ofNat (crc / 256)]).getD j 0 := by
  simp only [ofBytes, encode, List.cons_append, List.nil_append, List.append_assoc,
    List.getD_cons_succ]

theorem encode_round_trip_core (createCRC : Buffer → Int → Nat) (s : TelegramParser)
    (d : uint8_t) (l : Layout) (device : uint8_t)
    (m0 m1 m2 m3 m4 m5 m6 m7 m8 m9 : uint8_t) (cls : TelegramClass)
    (sector : Nat) (points : List Nat) (crc : Nat)
    (hver : l = .compat ↔ (m0 = 2 ∧ m1 = 1))
    (hwords : declaredWords l (payloadBytes cls sector points).length < 65536)
    (hcrc : crc = createCRC
        ((ofBytes (encode l device [m0, m1, m2, m3, m4, m5, m6, m7, m8, m9] cls sector points
          crc)).plus 4)
        (((encode l device [m0, m1, m2, m3, m4, m5, m6, m7, m8, m9] cls sector points
          crc).length : Int) - 6) % 65536)
    (hl3 : l = .optional → crcTest createCRC
        (ofBytes (encode l device [m0, m1, m2, m3, m4, m5, m6, m7, m8, m9] cls sector points
          crc)) .plain = false) :
    (parseHeader createCRC s
        (ofBytes (encode l device [m0, m1, m2, m3, m4, m5, m6, m7, m8, m9] cls sector points crc))
        (encode l device [m0, m1, m2, m3, m4, m5, m6, m7, m8, m9] cls sector points crc).length
        d).1 = true
    ∧ (parseHeader createCRC s
        (ofBytes (encode l device [m0, m1, m2, m3, m4, m5, m6, m7, m8, m9] cls sector points crc))
        (encode l device [m0, m1, m2, m3, m4, m5, m6, m7, m8, m9] cls sector points crc).length
        d).2.user_data_size_ = ((payloadBytes cls sector points).length : Int)
    ∧ getCompletePacketSize (parseHeader createCRC s
        (ofBytes (encode l device [m0, m1, m2, m3, m4, m5, m6, m7, m8, m9] cls sector points crc))
        (encode l device [m0, m1, m2, m3, m4, m5, m6, m7, m8, m9] cls sector points crc).length
        d).2 = 22 + ((payloadBytes cls sector points).length : Int) := by
  have hlen : (encode l device [m0, m1, m2, m3, m4, m5, m6, m7, m8, m9] cls sector points
      crc).length = 22 + (payloadBytes cls sector points).length := by
    simp only [encode, List.length_append, List.length_cons, List.length_nil]
    omega
  have hP := payloadBytes_length cls sector points
  have hk := counted_le l
  have hkeven : l.counted % 2 = 0 := by cases l <;> rfl
  have hPeven : (payloadBytes cls sector points).length % 2 = 0 := by
    rw [hP]
    split <;> omega
  generalize hB : ofBytes (encode l device [m0, m1, m2, m3, m4, m5, m6, m7, m8, m9] cls sector
    points crc) = B at *
  have b0 : B 0 = 0 := by rw [← hB]; rfl
  have b1 : B 1 = 0 := by rw [← hB]; rfl
  have b2 : B 2 = 0 := by rw [← hB]; rfl
  have b3 : B 3 = 0 := by rw [← hB]; rfl
  have b4 : B 4 = 0 := by rw [← hB]; rfl
  have b5 : B 5 = 0 := by rw [← hB]; rfl
  have b6 : B 6 = Fin.ofNat (declaredWords l (payloadBytes cls sector points).length / 256) := by
    rw [← hB]; rfl
  have b7 : B 7 = Fin.ofNat (declaredWords l (payloadBytes cls sector points).length % 256) := by
    rw [← hB]; rfl
  have b8 : B 8 = 255 := by rw [← hB]; rfl
  have b10 : B 10 = m0 := by rw [← hB]; rfl
  have b11 : B 11 = m1 := by rw [← hB]; rfl
  have hpay : ∀ j, B (j + 20) = (payloadBytes cls sector points
      ++ [Fin.ofNat (crc % 256), Fin.ofNat (crc / 256)]).getD j 0 := by
    intro j
    rw [← hB]
    exact encode_at_payload l device m0 m1 m2 m3 m4 m5 m6 m7 m8 m9 cls sector points crc j
  rw [hlen] at hcrc ⊢
  refine accept_of_facts createCRC s B _ d l
    (declaredWords l (payloadBytes cls sector points).length)
    (payloadBytes cls sector points).length ?_ ?_ ?_ (Nat.le_refl _) ?_ ?_ hl3 ?_
  · rw [check_iff, b0, b1, b2, b3, b4, b5, b8]
    decide
  · simp only [declared_size_words, b6, b7, Fin.ofNat, Nat.reduceAdd]
    omega
  · unfold declaredWords
    omega
  · simp only [word16, b10, b11, Nat.reduceAdd]
    rw [hver]
    constructor
    · intro h
      have v2 : ((2 : uint8_t) : Nat) = 2 := rfl
      have v1 : ((1 : uint8_t) : Nat) = 1 := rfl
      exact ⟨Fin.ext (by omega), Fin.ext (by omega)⟩
    · rintro ⟨rfl, rfl⟩
      rfl
  · have hclt : crc < 65536 := by
      rw [hcrc]
      exact Nat.mod_lt _ (by decide)
    have e : (((22 + (payloadBytes cls sector points).length : Nat) : Int) - 6)
        = ((payloadBytes cls sector points).length : Int) + 16 := by omega
    rw [e] at hcrc
    rw [← hcrc]
    have c0 := hpay (payloadBytes cls sector points).length
    have c1 := hpay ((payloadBytes cls sector points).length + 1)
    rw [List.getD_append_right _ _ _ _ (Nat.le_refl _)] at c0
    rw [List.getD_append_right _ _ _ _ (Nat.le_succ _)] at c1
    have e1 : (payloadBytes cls sector points).length + 1
        - (payloadBytes cls sector points).length = 1 := by omega
    simp only [Nat.sub_self, e1, List.getD_cons_zero, List.getD_cons_succ] at c0 c1
    have f0 : 20 + (payloadBytes cls sector points).length
        = (payloadBytes cls sector points).length + 20 := by omega
    have f1 : 20 + (payloadBytes cls sector points).length + 1
        = (payloadBytes cls sector points).length + 1 + 20 := by omega
    simp only [word16, f0, f1, c0, c1, Fin.ofNat, Nat.reduceAdd]
    omega
  · have t0 := hpay 0
    have t1 := hpay 1
    simp only [Nat.zero_add, Nat.reduceAdd] at t0 t1
    have hw : word16 B 20 = IO_TYPE ∨ word16 B 20 = DISTANCE ∨ word16 B 20 = REFLEXION := by
      cases cls <;>
        simp only [payloadBytes, List.cons_append, List.getD_cons_zero,
          List.getD_cons_succ] at t0 t1 <;>
        simp only [word16, Nat.reduceAdd, t0, t1] <;> decide
    simp only [knownClass, Bool.or_eq_true, beq_iff_eq]
    tauto

theorem num_points_val (m : Nat) (hm : m < 100000) :
    to_size_t ((to_size_t ((to_size_t (((4 + 2 * m : Nat) : Int)) : Int) - 2) : Int) - 2) / 2
      = m := by
  unfold to_size_t
  omega

theorem getField_of_sector (s : TelegramParser) (sector : Nat)
    (hs : 1 ≤ sector ∧ sector ≤ 5) (h : s.td_.type = 0x1111 * sector) :
    getField s = (sector : Int) := by
  obtain ⟨h1, h5⟩ := hs
  unfold getField
  rw [h]
  interval_cases sector <;> rfl

theorem collision_bytes (p0 crc : Nat) :
    encode .optional 7 [3, 1, 0, 0, 1, 2, 3, 4, 5, 6] .distance 1 [p0, 5, 8197] crc
      = collisionHead ++ [Fin.ofNat (p0 % 256), Fin.ofNat (p0 / 256), 5, 0, 5, 0x20,
          Fin.ofNat (crc % 256), Fin.ofNat (crc / 256)] := by
  have hw : declaredWords .optional (payloadBytes .distance 1 [p0, 5, 8197]).length = 9 := by
    simp only [payloadBytes_length, if_true, List.length_cons, List.length_nil]
    decide
  simp only [encode, hw]
  simp only [payloadBytes, pointBytes, collisionHead, List.cons_append, List.nil_append]
  rfl

theorem collision_crc_local (createCRC : Buffer → Int → Nat)
    (hlocal : ReadsOnlyItsBytes createCRC) (p0 c c' : Nat) :
    createCRC ((ofBytes (collisionHead ++ [Fin.ofNat (p0 % 256), Fin.ofNat (p0 / 256), 5, 0, 5,
        0x20, Fin.ofNat (c % 256), Fin.ofNat (c / 256)])).plus 4) (32 - 6)
      = createCRC ((ofBytes (collisionHead ++ [Fin.ofNat (p0 % 256), Fin.ofNat (p0 / 256), 5, 0,
        5, 0x20, Fin.ofNat (c' % 256), Fin.ofNat (c' / 256)])).plus 4) (32 - 6) := by
  apply hlocal
  intro i hi
  have hi2 : i < 26 := by omega
  interval_cases i <;>
    simp only [Buffer.plus, ofBytes, collisionHead, List.cons_append, List.nil_append,
      List.getD_cons_succ, List.getD_cons_zero, Nat.reduceAdd]

theorem collision_head_local (p0 c : Nat) (i : Nat) (hi : i < 24) :
    ofBytes (collisionHead ++ [Fin.ofNat (p0 % 256), Fin.ofNat (p0 / 256), 5, 0, 5, 0x20,
        Fin.ofNat (c % 256), Fin.ofNat (c / 256)]) i = ofBytes collisionHead i := by
  interval_cases i <;>
    simp only [ofBytes, collisionHead, List.cons_append, List.nil_append,
      List.getD_cons_succ, List.getD_cons_zero]

/-- For every checksum that reads only its bytes there is a well-formed
32-byte telegram built under the layout with optional fields that `parseHeader`
accepts under the layout without them, with a complete packet size of 26: take
the first point equal to the checksum of bytes 4..23. -/
theorem layout3_collision (createCRC : Buffer → Int → Nat)
    (hlocal : ReadsOnlyItsBytes createCRC) (s : TelegramParser) :
    ∃ p0 crc : Nat,
      (encode .optional 7 [3, 1, 0, 0, 1, 2, 3, 4, 5, 6] .distance 1 [p0, 5, 8197] crc).length
        = 32
      ∧ crc = createCRC
          ((ofBytes (encode .optional 7 [3, 1, 0, 0, 1, 2, 3, 4, 5, 6] .distance 1 [p0, 5, 8197]
            crc)).plus 4) (32 - 6) % 65536
      ∧ (parseHeader createCRC s
          (ofBytes (encode .optional 7 [3, 1, 0, 0, 1, 2, 3, 4, 5, 6] .distance 1 [p0, 5, 8197]
            crc)) 32 7).1 = true
      ∧ getCompletePacketSize (parseHeader createCRC s
          (ofBytes (encode .optional 7 [3, 1, 0, 0, 1, 2, 3, 4, 5, 6] .distance 1 [p0, 5, 8197]
            crc)) 32 7).2 = 26 := by
  simp only [collision_bytes]
  refine ⟨createCRC ((ofBytes collisionHead).plus 4) 20 % 65536,
    createCRC ((ofBytes (collisionHead ++
      [Fin.ofNat (createCRC ((ofBytes collisionHead).plus 4) 20 % 65536 % 256),
       Fin.ofNat (createCRC ((ofBytes collisionHead).plus 4) 20 % 65536 / 256), 5, 0, 5, 0x20,
       Fin.ofNat (0 % 256), Fin.ofNat (0 / 256)])).plus 4) (32 - 6)
      % 65536, rfl, ?_, ?_⟩
  · exact congrArg (fun x => x % 65536) (collision_crc_local createCRC hlocal _ 0 _)
  · generalize hp : createCRC ((ofBytes collisionHead).plus 4) 20 % 65536 = p0
    have hp0 : p0 < 65536 := by
      rw [← hp]
      exact Nat.mod_lt _ (by decide)
    generalize createCRC ((ofBytes (collisionHead ++
      [Fin.ofNat (p0 % 256), Fin.ofNat (p0 / 256), 5, 0, 5, 0x20,
       Fin.ofNat (0 % 256), Fin.ofNat (0 / 256)])).plus 4) (32 - 6) % 65536 = crc
    generalize hB : ofBytes (collisionHead ++
      [Fin.ofNat (p0 % 256), Fin.ofNat (p0 / 256), 5, 0, 5, 0x20,
       Fin.ofNat (crc % 256), Fin.ofNat (crc / 256)]) = B
    have hhead : ∀ i, i < 24 → B i = ofBytes collisionHead i := by
      intro i hi
      rw [← hB]
      exact collision_head_local p0 crc i hi
    have b24 : B 24 = Fin.ofNat (p0 % 256) := by
      rw [← hB]
      simp only [ofBytes, collisionHead, List.cons_append, List.nil_append,
        List.getD_cons_succ, List.getD_cons_zero]
    have b25 : B 25 = Fin.ofNat (p0 / 256) := by
      rw [← hB]
      simp only [ofBytes, collisionHead, List.cons_append, List.nil_append,
        List.getD_cons_succ, List.getD_cons_zero]
    have hcrc : word16 B (20 + 4) = createCRC (B.plus 4) (((4 : Nat) : Int) + 16) % 65536 := by
      have e : createCRC (B.plus 4) (((4 : Nat) : Int) + 16)
          = createCRC ((ofBytes collisionHead).plus 4) 20 := by
        apply hlocal
        intro i hi
        have hi2 : i < 20 := by omega
        exact hhead (4 + i) (by omega)
      rw [e, hp]
      simp only [word16, Nat.reduceAdd, b24, b25, Fin.ofNat]
      omega
    have h := accept_of_facts createCRC s B 32 7 .plain 9 4 ?_ ?_ (by decide) (by decide) ?_
      hcrc (fun h => by cases h) ?_
    · exact ⟨h.1, by rw [h.2.2]; rfl⟩
    · rw [check_iff, hhead 0 (by decide), hhead 1 (by decide), hhead 2 (by decide),
        hhead 3 (by decide), hhead 4 (by decide), hhead 5 (by decide), hhead 8 (by decide)]
      decide
    · simp only [declared_size_words, hhead 6 (by decide), hhead 7 (by decide)]
      decide
    · simp only [word16, Nat.reduceAdd, hhead 10 (by decide), hhead 11 (by decide)]
      decide
    · simp only [knownClass, word16, Nat.reduceAdd, hhead 20 (by decide), hhead 21 (by decide)]
      decide

theorem sumCRC_reads_only_its_bytes : ReadsOnlyItsBytes sumCRC := by
  intro p q Size h
  unfold sumCRC
  apply List.foldl_ext
  intro acc i hi
  rw [List.mem_range] at hi
  rw [h i (by omega)]

/-! ## State after `parseHeader` and `readDistRaw` -/

theorem parseHeader_layout_fields (createCRC : Buffer → Int → Nat) (s : TelegramParser)
    (buffer : Buffer) (max_size : Nat) (DEVICE_ADDR : uint8_t)
    (h10 : 10 ≤ max_size) (hc : check (TELEGRAM_COMMON1.read buffer) DEVICE_ADDR = true) :
    (parseHeader createCRC s buffer max_size DEVICE_ADDR).2.size_field_start_byte_
        = (selected createCRC buffer).start
    ∧ (parseHeader createCRC s buffer max_size DEVICE_ADDR).2.crc_bytes_in_size_
        = (selected createCRC buffer).crcb := by
  rw [parseHeader_closed]
  have h10b : ¬ max_size < 10 := by omega
  have hTF : (true = false) = False := by simp
  simp only [h10b, hc, hTF, if_false]
  split_ifs <;> exact ⟨rfl, rfl⟩

theorem readDistRaw_not_dist (s : TelegramParser) (buffer : Buffer) (res : List Int)
    (h : isDist s = false) : readDistRaw s buffer res = [] := by
  simp only [readDistRaw, h, Bool.not_false, if_true, List.take_zero]

theorem readDistRaw_length (s : TelegramParser) (buffer : Buffer) (res : List Int)
    (h : isDist s = true) :
    (readDistRaw s buffer res).length
      = to_size_t ((to_size_t ((to_size_t s.user_data_size_ : Int) - 2) : Int) - 2) / 2 := by
  simp only [readDistRaw, h, Bool.not_true, Bool.false_eq_true, if_false, List.take_zero,
    List.nil_append, List.length_map, List.length_range]

theorem readDistRaw_getElem? (s : TelegramParser) (buffer : Buffer) (res : List Int) (i : Nat)
    (h : isDist s = true)
    (hi : i < to_size_t ((to_size_t ((to_size_t s.user_data_size_ : Int) - 2) : Int) - 2) / 2) :
    (readDistRaw s buffer res)[i]?
      = some ((word16 buffer ((24 + 2 * i) % size_t_mod) : Nat) : Int) := by
  have e : (10 + 10 + 2 + 2 + i * 2 % size_t_mod) % size_t_mod = (24 + 2 * i) % size_t_mod := by
    unfold to_size_t at hi
    unfold size_t_mod
    omega
  simp only [readDistRaw, h, Bool.not_true, Bool.false_eq_true, if_false, List.take_zero,
    List.nil_append, List.getElem?_map, List.getElem?_range hi, Option.map_some', e]
  rfl

theorem num_points_of_payload (u : Int) (h4 : 4 ≤ u) (hu : u < 200000) :
    to_size_t ((to_size_t ((to_size_t u : Int) - 2) : Int) - 2) / 2 = ((u - 4) / 2).toNat := by
  unfold to_size_t
  omega

theorem parseHeader_short_window (createCRC : Buffer → Int → Nat) (s : TelegramParser)
    (buffer : Buffer) (max_size : Nat) (DEVICE_ADDR : uint8_t) (h : max_size < 10) :
    parseHeader createCRC s buffer max_size DEVICE_ADDR = (false, s) := by
  rw [parseHeader_closed, if_pos h]

theorem parseHeader_bad_header (createCRC : Buffer → Int → Nat) (s : TelegramParser)
    (buffer : Buffer) (max_size : Nat) (DEVICE_ADDR : uint8_t) (h10 : 10 ≤ max_size)
    (hc : check (TELEGRAM_COMMON1.read buffer) DEVICE_ADDR = false) :
    parseHeader createCRC s buffer max_size DEVICE_ADDR
      = (false, { s with tc1_ := TELEGRAM_COMMON1.read buffer }) := by
  rw [parseHeader_closed, if_neg (by omega), if_pos hc]

theorem parseHeader_tc2 (createCRC : Buffer → Int → Nat) (s : TelegramParser)
    (buffer : Buffer) (max_size : Nat) (DEVICE_ADDR : uint8_t)
    (h10 : 10 ≤ max_size) (hc : check (TELEGRAM_COMMON1.read buffer) DEVICE_ADDR = true) :
    (parseHeader createCRC s buffer max_size DEVICE_ADDR).2.tc2_
      = TELEGRAM_COMMON2.read (buffer.plus 10) := by
  rw [parseHeader_closed]
  have h10b : ¬ max_size < 10 := by omega
  have hTF : (true = false) = False := by simp
  simp only [h10b, hc, hTF, if_false]
  split_ifs <;> rfl

theorem payload_four_has_no_points (createCRC : Buffer → Int → Nat) (s : TelegramParser)
    (buffer : Buffer) (max_size : Nat) (DEVICE_ADDR : uint8_t) (res : List Int)
    (hu : (parseHeader createCRC s buffer max_size DEVICE_ADDR).2.user_data_size_ = 4) :
    readDistRaw (parseHeader createCRC s buffer max_size DEVICE_ADDR).2 buffer res = [] := by
  generalize parseHeader createCRC s buffer max_size DEVICE_ADDR = r at *
  by_cases hd : isDist r.2 = true
  · have hl := readDistRaw_length r.2 buffer res hd
    rw [hu] at hl
    exact List.eq_nil_of_length_eq_zero (by rw [hl]; decide)
  · exact readDistRaw_not_dist _ _ _ (by simpa using hd)

theorem parseHeaderTraced_fst (createCRC : Buffer → Int → Nat) (s : TelegramParser)
    (buffer : Buffer) (max_size : Nat) (DEVICE_ADDR : uint8_t) :
    (parseHeaderTraced createCRC s buffer max_size DEVICE_ADDR).1
      = parseHeader createCRC s buffer max_size DEVICE_ADDR := by
  unfold parseHeaderTraced parseHeader
  by_cases h10 : 10 > max_size
  · simp only [h10, if_true]
  · simp only [h10, if_false]
    by_cases hc : check (TELEGRAM_COMMON1.read buffer) DEVICE_ADDR = true
    · simp only [hc, Bool.not_true, Bool.false_eq_true, if_false]
      generalize probe createCRC
        { tc1_ := ntoh_COMMON1 (TELEGRAM_COMMON1.read buffer),
          tc2_ := TELEGRAM_COMMON2.read (buffer.plus 10),
          tc3_ := TELEGRAM_COMMON3.read (buffer.plus (10 + 10)), td_ := s.td_,
          size_field_start_byte_ := s.size_field_start_byte_,
          crc_bytes_in_size_ := s.crc_bytes_in_size_,
          user_data_size_ := s.user_data_size_ } buffer 4 2 = r1
      generalize probe createCRC
        { tc1_ := ntoh_COMMON1 (TELEGRAM_COMMON1.read buffer),
          tc2_ := TELEGRAM_COMMON2.read (buffer.plus 10),
          tc3_ := TELEGRAM_COMMON3.read (buffer.plus (10 + 10)), td_ := s.td_,
          size_field_start_byte_ := s.size_field_start_byte_,
          crc_bytes_in_size_ := s.crc_bytes_in_size_,
          user_data_size_ := s.user_data_size_ } buffer 8 2 = r2
      generalize probe createCRC r2.s buffer 12 0 = r3
      by_cases hv : ((TELEGRAM_COMMON2.read (buffer.plus 10)).protocol_version == 258) = true
      · simp only [hv, if_true]
        simp only [apply_ite Prod.fst]
      · simp only [hv, if_false]
        by_cases h2 : (r2.tt.crc != r2.crc) = true
        · simp only [h2, if_true]
          simp only [apply_ite Prod.fst]
        · simp only [h2, if_false]
          simp only [apply_ite Prod.fst]
    · have hc2 : check (TELEGRAM_COMMON1.read buffer) DEVICE_ADDR = false := by
        simpa using hc
      simp only [hc2, Bool.not_false, if_true]

theorem accept_below_twenty_negative_payload (createCRC : Buffer → Int → Nat)
    (s : TelegramParser) (buffer : Buffer) (max_size : Nat) (DEVICE_ADDR : uint8_t)
    (hmax : max_size < 20)
    (h : (parseHeader createCRC s buffer max_size DEVICE_ADDR).1 = true) :
    (parseHeader createCRC s buffer max_size DEVICE_ADDR).2.user_data_size_ < -2 := by
  obtain ⟨h10, hc, hsize, -, -⟩ := (parseHeader_accepts_iff _ _ _ _ _).mp h
  rw [parseHeader_user_data_size createCRC s buffer max_size DEVICE_ADDR h10 hc]
  have hk := counted_le (selected createCRC buffer)
  omega

theorem readDistRaw_count_and_bounds (createCRC : Buffer → Int → Nat) (s : TelegramParser)
    (buffer : Buffer) (max_size : Nat) (DEVICE_ADDR : uint8_t) (res : List Int)
    (h : (parseHeader createCRC s buffer max_size DEVICE_ADDR).1 = true)
    (hd : isDist (parseHeader createCRC s buffer max_size DEVICE_ADDR).2 = true)
    (h4 : 4 ≤ (parseHeader createCRC s buffer max_size DEVICE_ADDR).2.user_data_size_) :
    ((readDistRaw (parseHeader createCRC s buffer max_size DEVICE_ADDR).2 buffer res).length : Int)
        = ((parseHeader createCRC s buffer max_size DEVICE_ADDR).2.user_data_size_ - 4) / 2
    ∧ ∀ i : Nat,
        i < (readDistRaw (parseHeader createCRC s buffer max_size DEVICE_ADDR).2 buffer res).length →
        ((24 + 2 * i + 1 : Nat) : Int)
          < getCompletePacketSize (parseHeader createCRC s buffer max_size DEVICE_ADDR).2 - 2 := by
  obtain ⟨h10, hc, -, -, -⟩ := (parseHeader_accepts_iff _ _ _ _ _).mp h
  have hu := parseHeader_user_data_size createCRC s buffer max_size DEVICE_ADDR h10 hc
  have hk := counted_le (selected createCRC buffer)
  have hn := declared_size_words_lt buffer
  have hT := getCompletePacketSize_of _ _ _ hn hk.1 hu
  generalize parseHeader createCRC s buffer max_size DEVICE_ADDR = r at *
  have hlt : r.2.user_data_size_ < 200000 := by omega
  have hl := readDistRaw_length r.2 buffer res hd
  rw [num_points_of_payload _ h4 hlt] at hl
  rw [hl, hT]
  constructor
  · omega
  · intro i hi
    omega

theorem parseHeaderTraced_reads_fixed_part (createCRC : Buffer → Int → Nat) (s : TelegramParser)
    (buffer : Buffer) (max_size : Nat) (DEVICE_ADDR : uint8_t)
    (h10 : 10 ≤ max_size) (hc : check (TELEGRAM_COMMON1.read buffer) DEVICE_ADDR = true) :
    (parseHeaderTraced createCRC s buffer max_size DEVICE_ADDR).2.take 3
      = [(0, 10), (10, 20), (20, 22)] := by
  unfold parseHeaderTraced
  have h10b : ¬ 10 > max_size := by omega
  simp only [h10b, if_false, hc, Bool.not_true, Bool.false_eq_true]
  generalize probe createCRC
    { tc1_ := ntoh_COMMON1 (TELEGRAM_COMMON1.read buffer),
      tc2_ := TELEGRAM_COMMON2.read (buffer.plus 10),
      tc3_ := TELEGRAM_COMMON3.read (buffer.plus (10 + 10)), td_ := s.td_,
      size_field_start_byte_ := s.size_field_start_byte_,
      crc_bytes_in_size_ := s.crc_bytes_in_size_,
      user_data_size_ := s.user_data_size_ } buffer 4 2 = r1
  generalize probe createCRC
    { tc1_ := ntoh_COMMON1 (TELEGRAM_COMMON1.read buffer),
      tc2_ := TELEGRAM_COMMON2.read (buffer.plus 10),
      tc3_ := TELEGRAM_COMMON3.read (buffer.plus (10 + 10)), td_ := s.td_,
      size_field_start_byte_ := s.size_field_start_byte_,
      crc_bytes_in_size_ := s.crc_bytes_in_size_,
      user_data_size_ := s.user_data_size_ } buffer 8 2 = r2
  generalize probe createCRC r2.s buffer 12 0 = r3
  by_cases hv : ((TELEGRAM_COMMON2.read (buffer.plus 10)).protocol_version == 258) = true
  · simp only [hv, if_true, apply_ite Prod.snd, apply_ite (List.take 3), List.cons_append,
      List.nil_append, List.append_assoc, List.take_succ_cons, List.take_zero, ite_self,
      Nat.reduceAdd]
  · by_cases h2 : (r2.tt.crc != r2.crc) = true
    · simp only [hv, h2, Bool.false_eq_true, if_false, if_true, apply_ite Prod.snd, apply_ite (List.take 3),
        List.cons_append, List.nil_append, List.append_assoc, List.take_succ_cons,
        List.take_zero, ite_self, Nat.reduceAdd]
    · simp only [hv, h2, Bool.false_eq_true, if_false, apply_ite Prod.snd, apply_ite (List.take 3),
        List.cons_append, List.nil_append, List.append_assoc, List.take_succ_cons,
        List.take_zero, ite_self, Nat.reduceAdd]

/-! ## Alignment of the payload and independence of the prior state -/

/-- The numerator of the point count in `readDistRaw` is even whenever the
payload size is `2n - k` with `k` one of the three counted sizes, also when the
subtraction wraps. -/
theorem num_points_exact (n : Nat) (l : Layout) :
    2 * (to_size_t ((to_size_t ((to_size_t (2 * (n : Int) - l.counted) : Int) - 2) : Int) - 2) / 2)
      = to_size_t ((to_size_t ((to_size_t (2 * (n : Int) - l.counted) : Int) - 2) : Int) - 2) := by
  unfold to_size_t
  cases l <;> simp only [Layout.counted] <;> omega

/-- The state fields set by the size hypothesis that `parseHeader` settles on. -/
theorem parseHeader_layout_cases (createCRC : Buffer → Int → Nat) (s : TelegramParser)
    (buffer : Buffer) (max_size : Nat) (DEVICE_ADDR : uint8_t)
    (h10 : 10 ≤ max_size) (hc : check (TELEGRAM_COMMON1.read buffer) DEVICE_ADDR = true) :
    ((parseHeader createCRC s buffer max_size DEVICE_ADDR).2.size_field_start_byte_ = 4
      ∧ (parseHeader createCRC s buffer max_size DEVICE_ADDR).2.crc_bytes_in_size_ = 2
      ∧ (parseHeader createCRC s buffer max_size DEVICE_ADDR).2.user_data_size_
          = 2 * (declared_size_words buffer : Int) - 18)
    ∨ ((parseHeader createCRC s buffer max_size DEVICE_ADDR).2.size_field_start_byte_ = 8
      ∧ (parseHeader createCRC s buffer max_size DEVICE_ADDR).2.crc_bytes_in_size_ = 2
      ∧ (parseHeader createCRC s buffer max_size DEVICE_ADDR).2.user_data_size_
          = 2 * (declared_size_words buffer : Int) - 14)
    ∨ ((parseHeader createCRC s buffer max_size DEVICE_ADDR).2.size_field_start_byte_ = 12
      ∧ (parseHeader createCRC s buffer max_size DEVICE_ADDR).2.crc_bytes_in_size_ = 0
      ∧ (parseHeader createCRC s buffer max_size DEVICE_ADDR).2.user_data_size_
          = 2 * (declared_size_words buffer : Int) - 8) := by
  have hu := parseHeader_user_data_size createCRC s buffer max_size DEVICE_ADDR h10 hc
  obtain ⟨hs, hb⟩ := parseHeader_layout_fields createCRC s buffer max_size DEVICE_ADDR h10 hc
  rw [hu, hs, hb]
  cases selected createCRC buffer
  · exact Or.inl ⟨rfl, rfl, rfl⟩
  · exact Or.inr (Or.inl ⟨rfl, rfl, rfl⟩)
  · exact Or.inr (Or.inr ⟨rfl, rfl, rfl⟩)

/-- The flag that `parseHeader` returns does not depend on the parser state
before the call. -/
theorem parseHeader_flag_state_free (createCRC : Buffer → Int → Nat) (s1 s2 : TelegramParser)
    (buffer : Buffer) (max_size : Nat) (DEVICE_ADDR : uint8_t) :
    (parseHeader createCRC s1 buffer max_size DEVICE_ADDR).1
      = (parseHeader createCRC s2 buffer max_size DEVICE_ADDR).1 :=
  Bool.eq_iff_iff.mpr
    ((parseHeader_accepts_iff createCRC s1 buffer max_size DEVICE_ADDR).trans
      (parseHeader_accepts_iff createCRC s2 buffer max_size DEVICE_ADDR).symm)

/-- When `parseHeader` returns true, the parser state after the call depends on
the buffer alone: not on the parser state before the call, and not on the
window size or the device address either. -/
theorem parseHeader_state_of_accept (createCRC : Buffer → Int → Nat) (s1 s2 : TelegramParser)
    (buffer : Buffer) (max1 max2 : Nat) (d1 d2 : uint8_t)
    (h1 : (parseHeader createCRC s1 buffer max1 d1).1 = true)
    (h2 : (parseHeader createCRC s2 buffer max2 d2).1 = true) :
    (parseHeader createCRC s1 buffer max1 d1).2 = (parseHeader createCRC s2 buffer max2 d2).2 := by
  rw [parseHeader_closed createCRC s1] at h1 ⊢
  rw [parseHeader_closed createCRC s2] at h2 ⊢
  split_ifs at h1 h2 ⊢ <;> first
    | exact absurd h1 Bool.false_ne_true
    | exact absurd h2 Bool.false_ne_true
    | rfl

/-- The method `readDistRaw` clears its result vector first, so what the vector
held before does not matter. -/
theorem readDistRaw_clears (s : TelegramParser) (buffer : Buffer) (res1 res2 : List Int) :
    readDistRaw s buffer res1 = readDistRaw s buffer res2 := by
  simp only [readDistRaw, List.take_zero]

/-! ## The baud-rate table -/

/-- Closed form of `getBaudrateCode`: the loop always ends, at the first table
entry equal to the rate or after the last entry. -/
theorem getBaudrateCode_closed (t : Termios) (r : Int) :
    getBaudrateCode t r =
      if 0 = r then some (true, t.B0) else if 50 = r then some (true, t.B50)
      else if 75 = r then some (true, t.B75) else if 110 = r then some (true, t.B110)
      else if 134 = r then some (true, t.B134) else if 150 = r then some (true, t.B150)
      else if 200 = r then some (true, t.B200) else if 300 = r then some (true, t.B300)
      else if 600 = r then some (true, t.B600) else if 1200 = r then some (true, t.B1200)
      else if 1800 = r then some (true, t.B1800) else if 2400 = r then some (true, t.B2400)
      else if 4800 = r then some (true, t.B4800) else if 9600 = r then some (true, t.B9600)
      else if 19200 = r then some (true, t.B19200) else if 38400 = r then some (true, t.B38400)
      else if 57600 = r then some (true, t.B57600)
      else if 115200 = r then some (true, t.B115200)
      else if 230400 = r then some (true, t.B230400)
      else if 460800 = r then some (true, t.B460800)
      else if 500000 = r then some (true, t.B500000)
      else if 576000 = r then some (true, t.B576000)
      else if 921600 = r then some (true, t.B921600)
      else if 1000000 = r then some (true, t.B1000000)
      else some (false, t.B38400) := by
  simp only [getBaudrateCode, getBaudrateCodeLoop, baudTable, baudCodes, List.length_cons,
    List.length_nil, Nat.reduceAdd, Nat.reduceLT, if_true, if_false, List.getD_cons_zero,
    List.getD_cons_succ, beq_iff_eq, Nat.lt_irrefl]

/-- A rate found at position `i` of `baudTable` gives the code at position `i` of
`baudCodes`. -/
theorem getBaudrateCode_at (t : Termios) (iBaudrate : Int) (i : Nat) (hi : i < 24)
    (h : baudTable.getD i 0 = iBaudrate) :
    getBaudrateCode t iBaudrate = some (true, (baudCodes t).getD i 0) := by
  interval_cases i <;> (subst h; rfl)

/-- A rate that is no entry of `baudTable` leaves the default code. -/
theorem getBaudrateCode_default (t : Termios) (iBaudrate : Int) (h : iBaudrate ∉ baudTable) :
    getBaudrateCode t iBaudrate = some (false, t.B38400) := by
  have e : ∀ a : Int, a ∈ baudTable → ¬ (a = iBaudrate) := fun a ha hh => h (hh ▸ ha)
  rw [getBaudrateCode_closed,
    if_neg (e 0 (by decide)), if_neg (e 50 (by decide)), if_neg (e 75 (by decide)),
    if_neg (e 110 (by decide)), if_neg (e 134 (by decide)), if_neg (e 150 (by decide)),
    if_neg (e 200 (by decide)), if_neg (e 300 (by decide)), if_neg (e 600 (by decide)),
    if_neg (e 1200 (by decide)), if_neg (e 1800 (by decide)), if_neg (e 2400 (by decide)),
    if_neg (e 4800 (by decide)), if_neg (e 9600 (by decide)), if_neg (e 19200 (by decide)),
    if_neg (e 38400 (by decide)), if_neg (e 57600 (by decide)), if_neg (e 115200 (by decide)),
    if_neg (e 230400 (by decide)), if_neg (e 460800 (by decide)), if_neg (e 500000 (by decide)),
    if_neg (e 576000 (by decide)), if_neg (e 921600 (by decide)), if_neg (e 1000000 (by decide))]

/-! ## The claims -/

/-- C1 (CRC soundness of acceptance). Whenever `parseHeader` returns true, with
`T = getCompletePacketSize()`, the 16-bit value `buffer[T-2] + 256*buffer[T-1]`
(read with no byte swap) equals the `uint16_t` local `crc`, which holds
`createCRC(buffer + 4, T - 2 - 4)`; it therefore equals the value of `createCRC`
itself whenever that value is a 16-bit checksum. -/
theorem parseHeader_crc_sound (createCRC : Buffer → Int → Nat) (s : TelegramParser)
    (buffer : Buffer) (max_size : Nat) (DEVICE_ADDR : uint8_t)
    (h : (parseHeader createCRC s buffer max_size DEVICE_ADDR).1 = true) :
    ((buffer (getCompletePacketSize
          (parseHeader createCRC s buffer max_size DEVICE_ADDR).2 - 2).toNat).val
      + 256 * (buffer (getCompletePacketSize
          (parseHeader createCRC s buffer max_size DEVICE_ADDR).2 - 1).toNat).val
      = createCRC (buffer.plus 4)
          (getCompletePacketSize
            (parseHeader createCRC s buffer max_size DEVICE_ADDR).2 - 2 - 4) % 65536)
    ∧ (createCRC (buffer.plus 4)
          (getCompletePacketSize
            (parseHeader createCRC s buffer max_size DEVICE_ADDR).2 - 2 - 4) < 65536 →
        (buffer (getCompletePacketSize
            (parseHeader createCRC s buffer max_size DEVICE_ADDR).2 - 2).toNat).val
          + 256 * (buffer (getCompletePacketSize
            (parseHeader createCRC s buffer max_size DEVICE_ADDR).2 - 1).toNat).val
          = createCRC (buffer.plus 4)
              (getCompletePacketSize
                (parseHeader createCRC s buffer max_size DEVICE_ADDR).2 - 2 - 4)) := by
  obtain ⟨h10, hc, -, hcrc, -⟩ := (parseHeader_accepts_iff _ _ _ _ _).mp h
  have hu := parseHeader_user_data_size createCRC s buffer max_size DEVICE_ADDR h10 hc
  have hk := counted_le (selected createCRC buffer)
  have hT := getCompletePacketSize_of _ _ _ (declared_size_words_lt buffer) hk.1 hu
  simp only [crcTest, word16, beq_iff_eq] at hcrc
  generalize (selected createCRC buffer).counted = k at *
  have e1 : (2 * (declared_size_words buffer : Int) + 22 - k - 2).toNat
      = 2 * declared_size_words buffer + 20 - k := by omega
  have e2 : (2 * (declared_size_words buffer : Int) + 22 - k - 1).toNat
      = 2 * declared_size_words buffer + 20 - k + 1 := by omega
  have e3 : 2 * (declared_size_words buffer : Int) + 22 - k - 2 - 4
      = 2 * (declared_size_words buffer : Int) + 16 - k := by omega
  rw [hT, e1, e2, e3]
  refine ⟨hcrc, fun hlt => ?_⟩
  rw [hcrc, Nat.mod_eq_of_lt hlt]

/-- Witness for C1 on `sampleCompat`. -/
theorem parseHeader_crc_sound_witness :
    (parseHeader sumCRC TelegramParser.init (ofBytes sampleCompat) 30 7).1 = true ∧
    ((ofBytes sampleCompat (getCompletePacketSize
          (parseHeader sumCRC TelegramParser.init (ofBytes sampleCompat) 30 7).2 - 2).toNat).val
      + 256 * (ofBytes sampleCompat (getCompletePacketSize
          (parseHeader sumCRC TelegramParser.init (ofBytes sampleCompat) 30 7).2 - 1).toNat).val
      = sumCRC ((ofBytes sampleCompat).plus 4)
          (getCompletePacketSize
            (parseHeader sumCRC TelegramParser.init (ofBytes sampleCompat) 30 7).2 - 2 - 4)
          % 65536) :=
  ⟨by rfl,
   (parseHeader_crc_sound sumCRC TelegramParser.init (ofBytes sampleCompat) 30 7 (by rfl)).1⟩

/-- C2 (layout 3 is probed only after layout 2 fails). For a new-protocol buffer
that passes the header check, with `n` the declared word count: if the layout-2
CRC test fails (`createCRC` over bytes `[4, 2n+6)` differs from the 16-bit value
at bytes `2n+6..2n+7`), the layout-3 CRC test succeeds (`createCRC` over bytes
`[4, 2n+12)` equals the 16-bit value at bytes `2n+12..2n+13`),
`max_size >= 2n+14` and the class tag is known, then `parseHeader` returns true
with user payload size `2n - 8` and `getCompletePacketSize() = 2n + 14`.
The CRC compared is the `uint16_t` local `crc` that receives `createCRC`. -/
theorem layout3_after_layout2_fails (createCRC : Buffer → Int → Nat) (s : TelegramParser)
    (buffer : Buffer) (max_size : Nat) (DEVICE_ADDR : uint8_t)
    (hcheck : check (TELEGRAM_COMMON1.read buffer) DEVICE_ADDR = true)
    (hver : word16 buffer 10 ≠ 0x102)
    (h2 : createCRC (buffer.plus 4) (2 * (declared_size_words buffer : Int) + 6 - 4) % 65536
            ≠ word16 buffer (2 * declared_size_words buffer + 6))
    (h3 : createCRC (buffer.plus 4) (2 * (declared_size_words buffer : Int) + 12 - 4) % 65536
            = word16 buffer (2 * declared_size_words buffer + 12))
    (hmax : 2 * declared_size_words buffer + 14 ≤ max_size)
    (hclass : word16 buffer 20 = 0xAAAA ∨ word16 buffer 20 = 0xBBBB
                ∨ word16 buffer 20 = 0xCCCC) :
    (parseHeader createCRC s buffer max_size DEVICE_ADDR).1 = true
    ∧ (parseHeader createCRC s buffer max_size DEVICE_ADDR).2.user_data_size_
        = 2 * (declared_size_words buffer : Int) - 8
    ∧ getCompletePacketSize (parseHeader createCRC s buffer max_size DEVICE_ADDR).2
        = 2 * (declared_size_words buffer : Int) + 14 := by
  have h10 : 10 ≤ max_size := by omega
  have e2 : 2 * (declared_size_words buffer : Int) + 6 - 4
      = 2 * (declared_size_words buffer : Int) + 16 - 14 := by omega
  have e3 : 2 * (declared_size_words buffer : Int) + 12 - 4
      = 2 * (declared_size_words buffer : Int) + 16 - 8 := by omega
  have f2 : 2 * declared_size_words buffer + 6 = 2 * declared_size_words buffer + 20 - 14 := by
    omega
  have f3 : 2 * declared_size_words buffer + 12 = 2 * declared_size_words buffer + 20 - 8 := by
    omega
  rw [e2, f2] at h2
  rw [e3, f3] at h3
  have t2 : crcTest createCRC buffer .plain = false := by
    simp only [crcTest, Layout.counted, Nat.cast_ofNat, beq_eq_false_iff_ne, ne_eq]
    exact fun e => h2 e.symm
  have hsel := selected_optional createCRC buffer hver t2
  have t3 : crcTest createCRC buffer .optional = true := by
    simp only [crcTest, Layout.counted, Nat.cast_ofNat, beq_iff_eq]
    exact h3.symm
  have hu := parseHeader_user_data_size createCRC s buffer max_size DEVICE_ADDR h10 hcheck
  rw [hsel] at hu
  have hT := getCompletePacketSize_of _ _ 8 (declared_size_words_lt buffer) (by decide) hu
  refine ⟨?_, hu, ?_⟩
  · rw [parseHeader_accepts_iff, hsel]
    refine ⟨h10, hcheck, ?_, t3, ?_⟩
    · simp only [Layout.counted]
      omega
    · simp only [knownClass, IO_TYPE, DISTANCE, REFLEXION, Bool.or_eq_true, beq_iff_eq]
      omega
  · rw [hT]
    omega

/-- Witness for C2 on `sampleOptional`. -/
theorem layout3_after_layout2_fails_witness :
    check (TELEGRAM_COMMON1.read (ofBytes sampleOptional)) 7 = true
    ∧ word16 (ofBytes sampleOptional) 10 ≠ 0x102
    ∧ sumCRC ((ofBytes sampleOptional).plus 4)
          (2 * (declared_size_words (ofBytes sampleOptional) : Int) + 6 - 4) % 65536
        ≠ word16 (ofBytes sampleOptional) (2 * declared_size_words (ofBytes sampleOptional) + 6)
    ∧ ((parseHeader sumCRC TelegramParser.init (ofBytes sampleOptional) 30 7).1 = true
      ∧ (parseHeader sumCRC TelegramParser.init (ofBytes sampleOptional) 30 7).2.user_data_size_
          = 2 * (declared_size_words (ofBytes sampleOptional) : Int) - 8
      ∧ getCompletePacketSize (parseHeader sumCRC TelegramParser.init (ofBytes sampleOptional) 30 7).2
          = 2 * (declared_size_words (ofBytes sampleOptional) : Int) + 14) :=
  ⟨by decide, by decide, by decide,
   layout3_after_layout2_fails sumCRC TelegramParser.init (ofBytes sampleOptional) 30 7
     (by decide) (by decide) (by decide) (by decide) (by decide) (by decide)⟩

/-- C3 (layout 2 is accepted first). For a new-protocol buffer that passes the
header check (a window of at least 10 bytes matching the pattern), with `n` the
declared word count: if `createCRC` over bytes `[4, 2n+6)` equals the 16-bit
value at bytes `2n+6..2n+7`, `max_size >= 2n+8` and the class tag is known, then
`parseHeader` returns true with user payload size `2n - 14` and
`getCompletePacketSize() = 2n + 8`; nothing is assumed about the layout-3
reading of the same bytes. -/
theorem layout2_accepted_first (createCRC : Buffer → Int → Nat) (s : TelegramParser)
    (buffer : Buffer) (max_size : Nat) (DEVICE_ADDR : uint8_t)
    (hlen : 10 ≤ max_size)
    (hcheck : check (TELEGRAM_COMMON1.read buffer) DEVICE_ADDR = true)
    (hver : word16 buffer 10 ≠ 0x102)
    (h2 : createCRC (buffer.plus 4) (2 * (declared_size_words buffer : Int) + 6 - 4) % 65536
            = word16 buffer (2 * declared_size_words buffer + 6))
    (hmax : 2 * declared_size_words buffer + 8 ≤ max_size)
    (hclass : word16 buffer 20 = 0xAAAA ∨ word16 buffer 20 = 0xBBBB
                ∨ word16 buffer 20 = 0xCCCC) :
    (parseHeader createCRC s buffer max_size DEVICE_ADDR).1 = true
    ∧ (parseHeader createCRC s buffer max_size DEVICE_ADDR).2.user_data_size_
        = 2 * (declared_size_words buffer : Int) - 14
    ∧ getCompletePacketSize (parseHeader createCRC s buffer max_size DEVICE_ADDR).2
        = 2 * (declared_size_words buffer : Int) + 8 := by
  have e2 : 2 * (declared_size_words buffer : Int) + 6 - 4
      = 2 * (declared_size_words buffer : Int) + 16 - 14 := by omega
  have f2 : 2 * declared_size_words buffer + 6 = 2 * declared_size_words buffer + 20 - 14 := by
    omega
  rw [e2, f2] at h2
  have t2 : crcTest createCRC buffer .plain = true := by
    simp only [crcTest, Layout.counted, Nat.cast_ofNat, beq_iff_eq]
    exact h2.symm
  have hsel := selected_plain createCRC buffer hver t2
  have hu := parseHeader_user_data_size createCRC s buffer max_size DEVICE_ADDR hlen hcheck
  rw [hsel] at hu
  have hT := getCompletePacketSize_of _ _ 14 (declared_size_words_lt buffer) (by decide) hu
  refine ⟨?_, hu, ?_⟩
  · rw [parseHeader_accepts_iff, hsel]
    refine ⟨hlen, hcheck, ?_, t2, ?_⟩
    · simp only [Layout.counted]
      omega
    · simp only [knownClass, IO_TYPE, DISTANCE, REFLEXION, Bool.or_eq_true, beq_iff_eq]
      omega
  · rw [hT]
    omega

/-- Witness for C3 on `samplePlain`. -/
theorem layout2_accepted_first_witness :
    check (TELEGRAM_COMMON1.read (ofBytes samplePlain)) 7 = true
    ∧ word16 (ofBytes samplePlain) 10 ≠ 0x102
    ∧ sumCRC ((ofBytes samplePlain).plus 4)
          (2 * (declared_size_words (ofBytes samplePlain) : Int) + 6 - 4) % 65536
        = word16 (ofBytes samplePlain) (2 * declared_size_words (ofBytes samplePlain) + 6)
    ∧ ((parseHeader sumCRC TelegramParser.init (ofBytes samplePlain) 30 7).1 = true
      ∧ (parseHeader sumCRC TelegramParser.init (ofBytes samplePlain) 30 7).2.user_data_size_
          = 2 * (declared_size_words (ofBytes samplePlain) : Int) - 14
      ∧ getCompletePacketSize (parseHeader sumCRC TelegramParser.init (ofBytes samplePlain) 30 7).2
          = 2 * (declared_size_words (ofBytes samplePlain) : Int) + 8) :=
  ⟨by decide, by decide, by decide,
   layout2_accepted_first sumCRC TelegramParser.init (ofBytes samplePlain) 30 7
     (by decide) (by decide) (by decide) (by decide) (by decide) (by decide)⟩

/-- C4 (compatibility-mode size formula). On every buffer on which `parseHeader`
returns true and whose protocol version field is `0x0102`, with `n` the
declared word count (bytes 6 and 7 in network order), the resolved user payload
size is `2n - 18` and `getCompletePacketSize() = 2n + 4`. -/
theorem compat_size_formula (createCRC : Buffer → Int → Nat) (s : TelegramParser)
    (buffer : Buffer) (max_size : Nat) (DEVICE_ADDR : uint8_t)
    (h : (parseHeader createCRC s buffer max_size DEVICE_ADDR).1 = true)
    (hver : word16 buffer 10 = 0x102) :
    (parseHeader createCRC s buffer max_size DEVICE_ADDR).2.user_data_size_
        = 2 * (256 * ((buffer 6).val : Int) + (buffer 7).val) - (20 - 4 + 2)
    ∧ (parseHeader createCRC s buffer max_size DEVICE_ADDR).2.user_data_size_
        = 2 * (256 * ((buffer 6).val : Int) + (buffer 7).val) - 18
    ∧ getCompletePacketSize (parseHeader createCRC s buffer max_size DEVICE_ADDR).2
        = 2 * (256 * ((buffer 6).val : Int) + (buffer 7).val) + 4 := by
  obtain ⟨h10, hc, -, -, -⟩ := (parseHeader_accepts_iff _ _ _ _ _).mp h
  have hu := parseHeader_user_data_size createCRC s buffer max_size DEVICE_ADDR h10 hc
  rw [selected_compat createCRC buffer hver] at hu
  have hT := getCompletePacketSize_of _ _ 18 (declared_size_words_lt buffer) (by decide) hu
  rw [hT, hu]
  simp only [declared_size_words, Layout.counted]
  omega

/-- Witness for C4 on `sampleCompat`. -/
theorem compat_size_formula_witness :
    (parseHeader sumCRC TelegramParser.init (ofBytes sampleCompat) 30 7).1 = true
    ∧ word16 (ofBytes sampleCompat) 10 = 0x102
    ∧ (parseHeader sumCRC TelegramParser.init (ofBytes sampleCompat) 30 7).2.user_data_size_ = 8
    ∧ getCompletePacketSize (parseHeader sumCRC TelegramParser.init (ofBytes sampleCompat) 30 7).2
        = 30 :=
  ⟨by rfl, by decide,
   (compat_size_formula sumCRC TelegramParser.init (ofBytes sampleCompat) 30 7
      (by rfl) (by decide)).2.1,
   (compat_size_formula sumCRC TelegramParser.init (ofBytes sampleCompat) 30 7
      (by rfl) (by decide)).2.2⟩

/-- C5 (no fall-through across protocol versions). On every buffer whose
protocol version field is `0x0102` and whose layout-1 CRC test fails
(`createCRC` over bytes `[4, 2n+2)` differs from the 16-bit value at bytes
`2n+2..2n+3`), `parseHeader` returns false, whatever the layout-2 and layout-3
readings of the same bytes would give. -/
theorem compat_no_fall_through (createCRC : Buffer → Int → Nat) (s : TelegramParser)
    (buffer : Buffer) (max_size : Nat) (DEVICE_ADDR : uint8_t)
    (hver : word16 buffer 10 = 0x102)
    (h1 : createCRC (buffer.plus 4) (2 * (declared_size_words buffer : Int) + 2 - 4) % 65536
            ≠ word16 buffer (2 * declared_size_words buffer + 2)) :
    (parseHeader createCRC s buffer max_size DEVICE_ADDR).1 = false := by
  have e : 2 * (declared_size_words buffer : Int) + 2 - 4
      = 2 * (declared_size_words buffer : Int) + 16 - 18 := by omega
  have f : 2 * declared_size_words buffer + 2 = 2 * declared_size_words buffer + 20 - 18 := by
    omega
  rw [e, f] at h1
  rw [Bool.eq_false_iff]
  intro h
  obtain ⟨-, -, -, hcrc, -⟩ := (parseHeader_accepts_iff _ _ _ _ _).mp h
  rw [selected_compat createCRC buffer hver] at hcrc
  simp only [crcTest, Layout.counted, Nat.cast_ofNat, beq_iff_eq] at hcrc
  exact h1 hcrc.symm

/-- Witness for C5 on `sampleCompatBadCRC`. -/
theorem compat_no_fall_through_witness :
    word16 (ofBytes sampleCompatBadCRC) 10 = 0x102
    ∧ sumCRC ((ofBytes sampleCompatBadCRC).plus 4)
          (2 * (declared_size_words (ofBytes sampleCompatBadCRC) : Int) + 2 - 4) % 65536
        ≠ word16 (ofBytes sampleCompatBadCRC)
            (2 * declared_size_words (ofBytes sampleCompatBadCRC) + 2)
    ∧ (parseHeader sumCRC TelegramParser.init (ofBytes sampleCompatBadCRC) 30 7).1 = false :=
  ⟨by decide, by decide,
   compat_no_fall_through sumCRC TelegramParser.init (ofBytes sampleCompatBadCRC) 30 7
     (by decide) (by decide)⟩

/-- C6 (decoded length never exceeds the window). Whenever `parseHeader` returns
true, `0 <= getCompletePacketSize() <= max_size`. -/
theorem packet_size_within_window (createCRC : Buffer → Int → Nat) (s : TelegramParser)
    (buffer : Buffer) (max_size : Nat) (DEVICE_ADDR : uint8_t)
    (h : (parseHeader createCRC s buffer max_size DEVICE_ADDR).1 = true) :
    0 ≤ getCompletePacketSize (parseHeader createCRC s buffer max_size DEVICE_ADDR).2
    ∧ getCompletePacketSize (parseHeader createCRC s buffer max_size DEVICE_ADDR).2
        ≤ (max_size : Int) := by
  obtain ⟨h10, hc, hmax, -, -⟩ := (parseHeader_accepts_iff _ _ _ _ _).mp h
  have hu := parseHeader_user_data_size createCRC s buffer max_size DEVICE_ADDR h10 hc
  have hk := counted_le (selected createCRC buffer)
  have hT := getCompletePacketSize_of _ _ _ (declared_size_words_lt buffer) hk.1 hu
  rw [hT]
  omega

/-- Witness for C6 on `samplePlain`. -/
theorem packet_size_within_window_witness :
    (parseHeader sumCRC TelegramParser.init (ofBytes samplePlain) 40 7).1 = true
    ∧ (0 ≤ getCompletePacketSize (parseHeader sumCRC TelegramParser.init (ofBytes samplePlain) 40 7).2
      ∧ getCompletePacketSize (parseHeader sumCRC TelegramParser.init (ofBytes samplePlain) 40 7).2
          ≤ ((40 : Nat) : Int)) :=
  ⟨by rfl,
   packet_size_within_window sumCRC TelegramParser.init (ofBytes samplePlain) 40 7 (by rfl)⟩

/-- C7, as stated, fails: `sampleCollision` is a well-formed new-protocol
telegram of 32 bytes built under the layout with optional fields, with the
right `sumCRC` in its two trailing bytes; `parseHeader` accepts it under the
layout without optional fields, reports a complete packet size of 26 and
`readDistRaw` returns no point instead of the three it was built from. -/
theorem round_trip_counterexample :
    sampleCollision.length = 32
    ∧ 938 = sumCRC ((ofBytes sampleCollision).plus 4) ((sampleCollision.length : Int) - 6) % 65536
    ∧ (parseHeader sumCRC TelegramParser.init (ofBytes sampleCollision)
        sampleCollision.length 7).1 = true
    ∧ getCompletePacketSize (parseHeader sumCRC TelegramParser.init (ofBytes sampleCollision)
        sampleCollision.length 7).2 = 26
    ∧ readDistRaw (parseHeader sumCRC TelegramParser.init (ofBytes sampleCollision)
        sampleCollision.length 7).2 (ofBytes sampleCollision) [] = [] := by
  refine ⟨by rfl, by decide, by rfl, by rfl, by rfl⟩

/-- C7, amended. Every synthetic telegram built as header (six zero bytes,
big-endian declared word count, `0xFF`, device address), 10-byte meta block,
class tag, for Distance the sector tag and the little-endian 16-bit points, and
`createCRC` of bytes `[4, end-2)` in the two trailing bytes, with the declared
word count chosen per its layout (layout 1 exactly when the meta block starts
with `02 01`), and, when it is built under layout 3, failing the layout-2 CRC
test on its bytes, round-trips: `parseHeader` on exactly those bytes returns
true, `getCompletePacketSize()` is the telegram length, `isDist()` and
`getField()` reproduce the class and the sector, and `readDistRaw` returns
exactly the points. The fields are those of a telegram that can be written
down: a sector in `1..5`, points and a declared word count that fit 16 bits. -/
theorem encode_round_trip (createCRC : Buffer → Int → Nat) (s : TelegramParser)
    (d : uint8_t) (res : List Int) (l : Layout) (device : uint8_t)
    (metaBlock : List uint8_t) (cls : TelegramClass)
    (sector : Nat) (points : List Nat) (crc : Nat)
    (hmeta : metaBlock.length = 10)
    (hver : l = .compat ↔ (metaBlock.getD 0 0 = 2 ∧ metaBlock.getD 1 0 = 1))
    (hsector : 1 ≤ sector ∧ sector ≤ 5)
    (hpoints : ∀ p ∈ points, p < 65536)
    (hwords : declaredWords l (payloadBytes cls sector points).length < 65536)
    (hcrc : crc = createCRC
        ((ofBytes (encode l device metaBlock cls sector points crc)).plus 4)
        (((encode l device metaBlock cls sector points crc).length : Int) - 6) % 65536)
    (hl3 : l = .optional → crcTest createCRC
        (ofBytes (encode l device metaBlock cls sector points crc)) .plain = false) :
    (parseHeader createCRC s (ofBytes (encode l device metaBlock cls sector points crc))
        (encode l device metaBlock cls sector points crc).length d).1 = true
    ∧ getCompletePacketSize
        (parseHeader createCRC s (ofBytes (encode l device metaBlock cls sector points crc))
          (encode l device metaBlock cls sector points crc).length d).2
        = ((encode l device metaBlock cls sector points crc).length : Int)
    ∧ isDist
        (parseHeader createCRC s (ofBytes (encode l device metaBlock cls sector points crc))
          (encode l device metaBlock cls sector points crc).length d).2
        = decide (cls = .distance)
    ∧ getField
        (parseHeader createCRC s (ofBytes (encode l device metaBlock cls sector points crc))
          (encode l device metaBlock cls sector points crc).length d).2
        = (if cls = .distance then (sector : Int) else -1)
    ∧ readDistRaw
        (parseHeader createCRC s (ofBytes (encode l device metaBlock cls sector points crc))
          (encode l device metaBlock cls sector points crc).length d).2
        (ofBytes (encode l device metaBlock cls sector points crc)) res
        = (if cls = .distance then points.map Int.ofNat else []) := by
  obtain ⟨m0, m1, m2, m3, m4, m5, m6, m7, m8, m9, rfl⟩ := list_length_ten metaBlock hmeta
  simp only [List.getD_cons_zero, List.getD_cons_succ] at hver
  obtain ⟨hacc, hu, hT⟩ := encode_round_trip_core createCRC s d l device
    m0 m1 m2 m3 m4 m5 m6 m7 m8 m9 cls sector points crc hver hwords hcrc hl3
  have hlen : (encode l device [m0, m1, m2, m3, m4, m5, m6, m7, m8, m9] cls sector points
      crc).length = 22 + (payloadBytes cls sector points).length := by
    simp only [encode, List.length_append, List.length_cons, List.length_nil]
    omega
  obtain ⟨h10, hc, -, -, -⟩ := (parseHeader_accepts_iff _ _ _ _ _).mp hacc
  have htc3 := parseHeader_tc3 createCRC s _ _ d h10 hc
  have htd := parseHeader_td createCRC s _ _ d hacc
  have hpay := encode_at_payload l device m0 m1 m2 m3 m4 m5 m6 m7 m8 m9 cls sector points crc
  generalize hB : ofBytes (encode l device [m0, m1, m2, m3, m4, m5, m6, m7, m8, m9] cls sector
    points crc) = B at *
  generalize hr : parseHeader createCRC s B
    (encode l device [m0, m1, m2, m3, m4, m5, m6, m7, m8, m9] cls sector points crc).length d
    = r at *
  have t0 := hpay 0
  have t1 := hpay 1
  have t2 := hpay 2
  have t3 := hpay 3
  simp only [Nat.zero_add, Nat.reduceAdd] at t0 t1 t2 t3
  have hisD : isDist r.2 = decide (cls = .distance) := by
    simp only [isDist, htc3, word16, Nat.reduceAdd, t0, t1]
    cases cls <;>
      simp only [payloadBytes, List.cons_append, List.getD_cons_zero, List.getD_cons_succ] <;>
      decide
  refine ⟨hacc, ?_, hisD, ?_, ?_⟩
  · rw [hT, hlen]
    omega
  · cases cls
    · have e : r.2.td_.type = 0 := by
        rw [htd]
        simp only [word16, Nat.reduceAdd, t0, t1, payloadBytes, List.cons_append,
          List.getD_cons_zero, List.getD_cons_succ]
        have hd : ¬ (((0xAA : uint8_t) : Nat) + 256 * ((0xAA : uint8_t) : Nat) = DISTANCE) := by
          decide
        rw [if_neg hd]
      have g : getField r.2 = -1 := by
        simp only [getField, e]
        decide
      rw [g, if_neg (by decide)]
    · have e : r.2.td_.type = 0x1111 * sector := by
        rw [htd]
        simp only [word16, Nat.reduceAdd, t0, t1, t2, t3, payloadBytes, List.cons_append,
          List.getD_cons_zero, List.getD_cons_succ, Fin.ofNat]
        have hd : ((0xBB : uint8_t) : Nat) + 256 * ((0xBB : uint8_t) : Nat) = DISTANCE := by
          decide
        rw [if_pos hd]
        omega
      rw [getField_of_sector r.2 sector hsector e]
      rfl
    · have e : r.2.td_.type = 0 := by
        rw [htd]
        simp only [word16, Nat.reduceAdd, t0, t1, payloadBytes, List.cons_append,
          List.getD_cons_zero, List.getD_cons_succ]
        have hd : ¬ (((0xCC : uint8_t) : Nat) + 256 * ((0xCC : uint8_t) : Nat) = DISTANCE) := by
          decide
        rw [if_neg hd]
      have g : getField r.2 = -1 := by
        simp only [getField, e]
        decide
      rw [g, if_neg (by decide)]
  · cases cls
    · have g : isDist r.2 = false := by rw [hisD]; decide
      simp only [readDistRaw, g, Bool.not_false, if_true, List.take_zero]
      rw [if_neg (by decide)]
    · have g : isDist r.2 = true := by rw [hisD]; decide
      have hP : (payloadBytes .distance sector points).length = 4 + 2 * points.length := by
        rw [payloadBytes_length, if_pos rfl]
      have hk := counted_le l
      have hm : points.length < 100000 := by
        unfold declaredWords at hwords
        omega
      rw [hP] at hu
      simp only [readDistRaw, g, Bool.not_true, Bool.false_eq_true, if_false, List.take_zero,
        List.nil_append, hu, num_points_val _ hm, if_true]
      apply List.ext_getElem
      · simp only [List.length_map, List.length_range]
      · intro i h1 h2
        have hi : i < points.length := by
          simpa only [List.length_map] using h2
        simp only [List.getElem_map, List.getElem_range]
        have e0 : (10 + 10 + 2 + 2 + i * 2 % size_t_mod) % size_t_mod + 0
            = (2 * i + 4) + 20 := by
          unfold size_t_mod
          omega
        have e1 : (10 + 10 + 2 + 2 + i * 2 % size_t_mod) % size_t_mod + 1
            = (2 * i + 1 + 4) + 20 := by
          unfold size_t_mod
          omega
        have q := pointBytes_getD points [Fin.ofNat (crc % 256), Fin.ofNat (crc / 256)] i hi
          hpoints
        rw [List.getD_eq_getElem _ _ hi] at q
        simp only [read_uint16_t, Buffer.plus, e0, e1, hpay, payloadBytes, List.cons_append,
          List.getD_cons_succ]
        exact congrArg Int.ofNat q
    · have g : isDist r.2 = false := by rw [hisD]; decide
      simp only [readDistRaw, g, Bool.not_false, if_true, List.take_zero]
      rw [if_neg (by decide)]

/-- Witness for the amended C7: the layout-3 telegram `sampleOptional`, rebuilt
by `encode`, round-trips. -/
theorem encode_round_trip_witness :
    encode .optional 7 [3, 1, 0, 0, 1, 2, 3, 4, 5, 6] .distance 3 [5, 8197] 812 = sampleOptional
    ∧ crcTest sumCRC
        (ofBytes (encode .optional 7 [3, 1, 0, 0, 1, 2, 3, 4, 5, 6] .distance 3 [5, 8197] 812))
        .plain = false
    ∧ ((parseHeader sumCRC TelegramParser.init
          (ofBytes (encode .optional 7 [3, 1, 0, 0, 1, 2, 3, 4, 5, 6] .distance 3 [5, 8197] 812))
          (encode .optional 7 [3, 1, 0, 0, 1, 2, 3, 4, 5, 6] .distance 3 [5, 8197] 812).length
          7).1 = true
      ∧ getCompletePacketSize
          (parseHeader sumCRC TelegramParser.init
            (ofBytes (encode .optional 7 [3, 1, 0, 0, 1, 2, 3, 4, 5, 6] .distance 3 [5, 8197] 812))
            (encode .optional 7 [3, 1, 0, 0, 1, 2, 3, 4, 5, 6] .distance 3 [5, 8197] 812).length
            7).2
          = ((encode .optional 7 [3, 1, 0, 0, 1, 2, 3, 4, 5, 6] .distance 3 [5, 8197]
              812).length : Int)
      ∧ isDist
          (parseHeader sumCRC TelegramParser.init
            (ofBytes (encode .optional 7 [3, 1, 0, 0, 1, 2, 3, 4, 5, 6] .distance 3 [5, 8197] 812))
            (encode .optional 7 [3, 1, 0, 0, 1, 2, 3, 4, 5, 6] .distance 3 [5, 8197] 812).length
            7).2
          = decide (TelegramClass.distance = .distance)
      ∧ getField
          (parseHeader sumCRC TelegramParser.init
            (ofBytes (encode .optional 7 [3, 1, 0, 0, 1, 2, 3, 4, 5, 6] .distance 3 [5, 8197] 812))
            (encode .optional 7 [3, 1, 0, 0, 1, 2, 3, 4, 5, 6] .distance 3 [5, 8197] 812).length
            7).2
          = (if TelegramClass.distance = .distance then ((3 : Nat) : Int) else -1)
      ∧ readDistRaw
          (parseHeader sumCRC TelegramParser.init
            (ofBytes (encode .optional 7 [3, 1, 0, 0, 1, 2, 3, 4, 5, 6] .distance 3 [5, 8197] 812))
            (encode .optional 7 [3, 1, 0, 0, 1, 2, 3, 4, 5, 6] .distance 3 [5, 8197] 812).length
            7).2
          (ofBytes (encode .optional 7 [3, 1, 0, 0, 1, 2, 3, 4, 5, 6] .distance 3 [5, 8197] 812))
          [1, 2]
          = (if TelegramClass.distance = .distance then [5, 8197].map Int.ofNat else [])) :=
  ⟨by decide, by decide,
   encode_round_trip sumCRC TelegramParser.init 7 [1, 2] .optional 7
     [3, 1, 0, 0, 1, 2, 3, 4, 5, 6] .distance 3 [5, 8197] 812
     (by decide) (by decide) (by decide) (by decide) (by decide) (by decide)
     (fun _ => by decide)⟩

/-- C8 (header pattern match). For every 10-byte header block `w` and device
address `d`, `check(w, d)` returns true if and only if at every index `i` in
`0..9` `pattern_eq[i] == (w[i] & ~pattern_or[i])` for the two constant tables;
equivalently, if and only if bytes 0..5 are zero and byte 8 is `0xFF`; and the
result is the same for any block that differs from `w` only in bytes 6, 7, 9
and for any other device address. -/
theorem check_pattern_match (w : Buffer) (d : uint8_t) :
    (check (TELEGRAM_COMMON1.read w) d = true ↔ patternMatch w = true)
    ∧ (check (TELEGRAM_COMMON1.read w) d = true ↔
        ((w 0).val = 0 ∧ (w 1).val = 0 ∧ (w 2).val = 0 ∧ (w 3).val = 0 ∧ (w 4).val = 0
          ∧ (w 5).val = 0) ∧ (w 8).val = 255)
    ∧ (∀ (b6 b7 b9 d2 : uint8_t),
        check (TELEGRAM_COMMON1.read (setByte (setByte (setByte w 6 b6) 7 b7) 9 b9)) d2
          = check (TELEGRAM_COMMON1.read w) d) := by
  refine ⟨?_, check_iff w d, ?_⟩
  · rw [check_iff]
    simp only [patternMatch, List.all_eq_true, List.mem_range, beq_iff_eq]
    constructor
    · rintro ⟨⟨b0, b1, b2, b3, b4, b5⟩, b8⟩ i hi
      interval_cases i <;>
        simp only [pattern_eq, pattern_or, List.getD_cons_zero, List.getD_cons_succ, b0, b1, b2,
          b3, b4, b5, b8, Nat.sub_zero, Nat.sub_self, Nat.and_zero, Nat.zero_and]
      rfl
    · intro h
      have a0 := h 0 (by decide)
      have a1 := h 1 (by decide)
      have a2 := h 2 (by decide)
      have a3 := h 3 (by decide)
      have a4 := h 4 (by decide)
      have a5 := h 5 (by decide)
      have a8 := h 8 (by decide)
      simp only [pattern_eq, pattern_or, List.getD_cons_zero, List.getD_cons_succ, Nat.sub_zero,
        land_byte_mask] at a0 a1 a2 a3 a4 a5 a8
      omega
  · intro b6 b7 b9 d2
    rw [Bool.eq_iff_iff, check_iff, check_iff]
    exact Iff.rfl

/-- C9, as stated, fails: `sampleHeader` is accepted by `check`, and flipping
any one of the eight bits of its coordination-flag byte makes `check` reject
it. -/
theorem coordination_flag_bit_counterexample :
    check (TELEGRAM_COMMON1.read (ofBytes sampleHeader)) 7 = true
    ∧ ¬ ∃ k, k < 8 ∧
        check (TELEGRAM_COMMON1.read
          (setByte (ofBytes sampleHeader) 8 (flipBit (ofBytes sampleHeader 8) k))) 7 = true := by
  decide

/-- C9, amended. For every header block accepted by `check`, replacing the
device-address byte (byte 9) by any value keeps it accepted; no bit of the
coordination-flag byte (byte 8) may vary, flipping any one of its eight bits
makes `check` reject the block; and bytes 0..5 are all zero. -/
theorem check_free_and_fixed_bytes (w : Buffer) (d : uint8_t)
    (h : check (TELEGRAM_COMMON1.read w) d = true) :
    (∀ v : uint8_t, check (TELEGRAM_COMMON1.read (setByte w 9 v)) d = true)
    ∧ (∀ k, k < 8 →
        check (TELEGRAM_COMMON1.read (setByte w 8 (flipBit (w 8) k))) d = false)
    ∧ ((w 0).val = 0 ∧ (w 1).val = 0 ∧ (w 2).val = 0 ∧ (w 3).val = 0 ∧ (w 4).val = 0
        ∧ (w 5).val = 0) := by
  obtain ⟨h05, h8⟩ := (check_iff w d).mp h
  refine ⟨fun v => ?_, fun k hk => ?_, h05⟩
  · rw [check_iff]
    exact ⟨h05, h8⟩
  · rw [Bool.eq_false_iff, ne_eq, check_iff]
    rintro ⟨-, hf⟩
    have hw : w 8 = 255 := Fin.ext h8
    have e : (setByte w 8 (flipBit (w 8) k)) 8 = flipBit 255 k := by
      simp only [setByte, if_true, hw]
    rw [e] at hf
    interval_cases k <;> revert hf <;> decide

/-- Witness for the amended C9 on `sampleHeader`. -/
theorem check_free_and_fixed_bytes_witness :
    check (TELEGRAM_COMMON1.read (ofBytes sampleHeader)) 7 = true
    ∧ ((∀ v : uint8_t,
          check (TELEGRAM_COMMON1.read (setByte (ofBytes sampleHeader) 9 v)) 7 = true)
      ∧ (∀ k, k < 8 →
          check (TELEGRAM_COMMON1.read
            (setByte (ofBytes sampleHeader) 8 (flipBit (ofBytes sampleHeader 8) k))) 7 = false)
      ∧ ((ofBytes sampleHeader 0).val = 0 ∧ (ofBytes sampleHeader 1).val = 0
        ∧ (ofBytes sampleHeader 2).val = 0 ∧ (ofBytes sampleHeader 3).val = 0
        ∧ (ofBytes sampleHeader 4).val = 0 ∧ (ofBytes sampleHeader 5).val = 0)) :=
  ⟨by decide, check_free_and_fixed_bytes (ofBytes sampleHeader) 7 (by decide)⟩

/-- C10 (unknown class is a decode failure). On every buffer whose 2-byte class
tag at bytes 20..21 is none of `0xAAAA`, `0xBBBB`, `0xCCCC`, `parseHeader`
returns false, also when the header pattern, the size bound and the CRC test
all pass. The three tags read the same in either byte order. -/
theorem unknown_class_rejected (createCRC : Buffer → Int → Nat) (s : TelegramParser)
    (buffer : Buffer) (max_size : Nat) (DEVICE_ADDR : uint8_t)
    (hclass : word16 buffer 20 ≠ 0xAAAA ∧ word16 buffer 20 ≠ 0xBBBB
                ∧ word16 buffer 20 ≠ 0xCCCC) :
    (parseHeader createCRC s buffer max_size DEVICE_ADDR).1 = false := by
  rw [Bool.eq_false_iff]
  intro h
  obtain ⟨-, -, -, -, hk⟩ := (parseHeader_accepts_iff _ _ _ _ _).mp h
  simp only [knownClass, IO_TYPE, DISTANCE, REFLEXION, Bool.or_eq_true, beq_iff_eq] at hk
  omega

/-- Witness for C10 on `sampleUnknownClass`, whose header pattern, size bound
and CRC test all pass. -/
theorem unknown_class_rejected_witness :
    (word16 (ofBytes sampleUnknownClass) 20 ≠ 0xAAAA
      ∧ word16 (ofBytes sampleUnknownClass) 20 ≠ 0xBBBB
      ∧ word16 (ofBytes sampleUnknownClass) 20 ≠ 0xCCCC)
    ∧ check (TELEGRAM_COMMON1.read (ofBytes sampleUnknownClass)) 7 = true
    ∧ crcTest sumCRC (ofBytes sampleUnknownClass) (selected sumCRC (ofBytes sampleUnknownClass))
        = true
    ∧ (parseHeader sumCRC TelegramParser.init (ofBytes sampleUnknownClass) 30 7).1 = false :=
  ⟨by decide, by decide, by decide,
   unknown_class_rejected sumCRC TelegramParser.init (ofBytes sampleUnknownClass) 30 7
     (by decide)⟩

/-- C11, evaluated at its failing input: `parseHeader` accepts `sampleTagOnly`
as a Distance telegram with a user payload of 2 bytes and a complete packet
size of 24, and `readDistRaw` then returns `2^63 - 1` values instead of none,
read from byte 24 on, past the end of the telegram. -/
theorem point_count_wraps_on_short_payload :
    (parseHeader sumCRC TelegramParser.init (ofBytes sampleTagOnly) 24 7).1 = true
    ∧ isDist (parseHeader sumCRC TelegramParser.init (ofBytes sampleTagOnly) 24 7).2 = true
    ∧ (parseHeader sumCRC TelegramParser.init (ofBytes sampleTagOnly) 24 7).2.user_data_size_ = 2
    ∧ getCompletePacketSize
        (parseHeader sumCRC TelegramParser.init (ofBytes sampleTagOnly) 24 7).2 = 24
    ∧ (readDistRaw (parseHeader sumCRC TelegramParser.init (ofBytes sampleTagOnly) 24 7).2
        (ofBytes sampleTagOnly) []).length = 9223372036854775807 := by
  refine ⟨by rfl, by rfl, by rfl, by rfl, ?_⟩
  rw [readDistRaw_length _ _ _ (by rfl)]
  have e : (parseHeader sumCRC TelegramParser.init (ofBytes sampleTagOnly) 24 7).2.user_data_size_
      = 2 := by rfl
  rw [e]
  decide

/-- C12 (point value extraction). For every successfully parsed Distance
telegram and every index `i` below the point count `(user payload size - 4) / 2`,
the `i`-th value returned by `readDistRaw` is the full raw 16-bit little-endian
word `buffer[24+2i] + 256*buffer[25+2i]`, a value in `0..65535` with no flag bit
masked off: it is `distance + 2^13 * bit13 + 2^14 * protective + 2^15 * warn_field`
for the bit-fields of `TELEGRAM_S300_DIST_2B`, the range being its low 13 bits
and the three flags its bits 13, 14 and 15. -/
theorem readDistRaw_raw_word (createCRC : Buffer → Int → Nat) (s : TelegramParser)
    (buffer : Buffer) (max_size : Nat) (DEVICE_ADDR : uint8_t) (res : List Int) (i : Nat)
    (h : (parseHeader createCRC s buffer max_size DEVICE_ADDR).1 = true)
    (hd : isDist (parseHeader createCRC s buffer max_size DEVICE_ADDR).2 = true)
    (hi : (i : Int)
      < ((parseHeader createCRC s buffer max_size DEVICE_ADDR).2.user_data_size_ - 4) / 2) :
    (readDistRaw (parseHeader createCRC s buffer max_size DEVICE_ADDR).2 buffer res)[i]?
        = some (((buffer (24 + 2 * i)).val + 256 * (buffer (25 + 2 * i)).val : Nat) : Int)
    ∧ (buffer (24 + 2 * i)).val + 256 * (buffer (25 + 2 * i)).val ≤ 65535
    ∧ (buffer (24 + 2 * i)).val + 256 * (buffer (25 + 2 * i)).val
        = distance ((buffer (24 + 2 * i)).val + 256 * (buffer (25 + 2 * i)).val)
          + 8192 * bit13 ((buffer (24 + 2 * i)).val + 256 * (buffer (25 + 2 * i)).val)
          + 16384 * protective ((buffer (24 + 2 * i)).val + 256 * (buffer (25 + 2 * i)).val)
          + 32768 * warn_field ((buffer (24 + 2 * i)).val + 256 * (buffer (25 + 2 * i)).val) := by
  obtain ⟨h10, hc, -, -, -⟩ := (parseHeader_accepts_iff _ _ _ _ _).mp h
  have hu := parseHeader_user_data_size createCRC s buffer max_size DEVICE_ADDR h10 hc
  have hk := counted_le (selected createCRC buffer)
  have hn := declared_size_words_lt buffer
  generalize parseHeader createCRC s buffer max_size DEVICE_ADDR = r at *
  have h4 : 4 ≤ r.2.user_data_size_ := by omega
  have hlt : r.2.user_data_size_ < 200000 := by omega
  have hnum := num_points_of_payload r.2.user_data_size_ h4 hlt
  have hi2 : i < to_size_t ((to_size_t ((to_size_t r.2.user_data_size_ : Int) - 2) : Int) - 2)
      / 2 := by
    rw [hnum]
    omega
  have e : (24 + 2 * i) % size_t_mod = 24 + 2 * i := by
    unfold size_t_mod
    omega
  have e25 : 25 + 2 * i = 24 + 2 * i + 1 := by omega
  refine ⟨?_, ?_, ?_⟩
  · rw [readDistRaw_getElem? r.2 buffer res i hd hi2, e, e25]
    rfl
  · omega
  · simp only [distance, bit13, protective, warn_field]
    omega

/-- Witness for C12 on `sampleCompat`: its second point is `0x2005`. -/
theorem readDistRaw_raw_word_witness :
    (parseHeader sumCRC TelegramParser.init (ofBytes sampleCompat) 30 7).1 = true
    ∧ isDist (parseHeader sumCRC TelegramParser.init (ofBytes sampleCompat) 30 7).2 = true
    ∧ ((readDistRaw (parseHeader sumCRC TelegramParser.init (ofBytes sampleCompat) 30 7).2
          (ofBytes sampleCompat) [])[1]?
        = some (((ofBytes sampleCompat (24 + 2 * 1)).val
            + 256 * (ofBytes sampleCompat (25 + 2 * 1)).val : Nat) : Int))
    ∧ (ofBytes sampleCompat (24 + 2 * 1)).val + 256 * (ofBytes sampleCompat (25 + 2 * 1)).val
        = 0x2005 :=
  ⟨by rfl, by rfl,
   (readDistRaw_raw_word sumCRC TelegramParser.init (ofBytes sampleCompat) 30 7 [] 1
      (by rfl) (by rfl) (by decide)).1,
   by decide⟩

/-- C13 (sector mapping is total and non-fatal). On a buffer whose class tag is
Distance, `parseHeader` returns true exactly when the window length, the header
pattern, the size bound and the CRC test pass, with no condition on the sector
tag `t = 256*buffer[22] + buffer[23]`; and when it returns true, `getField()`
returns `k` when `t = 0x1111*k` for `k` in `1..5` and `-1` for every other `t`. -/
theorem sector_mapping_total (createCRC : Buffer → Int → Nat) (s : TelegramParser)
    (buffer : Buffer) (max_size : Nat) (DEVICE_ADDR : uint8_t)
    (hd : word16 buffer 20 = 0xBBBB) :
    ((parseHeader createCRC s buffer max_size DEVICE_ADDR).1 = true ↔
        10 ≤ max_size ∧ check (TELEGRAM_COMMON1.read buffer) DEVICE_ADDR = true ∧
        2 * declared_size_words buffer + 22 - (selected createCRC buffer).counted ≤ max_size ∧
        crcTest createCRC buffer (selected createCRC buffer) = true)
    ∧ ((parseHeader createCRC s buffer max_size DEVICE_ADDR).1 = true →
        (∀ k : Nat, 1 ≤ k → k ≤ 5 → 256 * (buffer 22).val + (buffer 23).val = 0x1111 * k →
          getField (parseHeader createCRC s buffer max_size DEVICE_ADDR).2 = (k : Int))
        ∧ ((∀ k : Nat, 1 ≤ k → k ≤ 5 → 256 * (buffer 22).val + (buffer 23).val ≠ 0x1111 * k) →
          getField (parseHeader createCRC s buffer max_size DEVICE_ADDR).2 = -1)) := by
  have hknown : knownClass buffer = true := by
    simp only [knownClass, hd, IO_TYPE, DISTANCE, REFLEXION]
    decide
  refine ⟨?_, fun h => ?_⟩
  · rw [parseHeader_accepts_iff, hknown]
    simp only [and_true]
  · have htd := parseHeader_td createCRC s buffer max_size DEVICE_ADDR h
    rw [if_pos (by rw [hd]; rfl)] at htd
    refine ⟨fun k h1 h5 ht => ?_, fun hne => ?_⟩
    · exact getField_of_sector _ k ⟨h1, h5⟩ (by rw [htd, ht])
    · have n1 := hne 1 (by decide) (by decide)
      have n2 := hne 2 (by decide) (by decide)
      have n3 := hne 3 (by decide) (by decide)
      have n4 := hne 4 (by decide) (by decide)
      have n5 := hne 5 (by decide) (by decide)
      simp only [getField, htd, beq_iff_eq]
      rw [if_neg (by omega), if_neg (by omega), if_neg (by omega), if_neg (by omega),
        if_neg (by omega)]

/-- Witness for C13 on `samplePlain`, whose sector tag is `0x2222`. -/
theorem sector_mapping_total_witness :
    word16 (ofBytes samplePlain) 20 = 0xBBBB
    ∧ (parseHeader sumCRC TelegramParser.init (ofBytes samplePlain) 30 7).1 = true
    ∧ getField (parseHeader sumCRC TelegramParser.init (ofBytes samplePlain) 30 7).2
        = ((2 : Nat) : Int) :=
  ⟨by decide, by rfl,
   ((sector_mapping_total sumCRC TelegramParser.init (ofBytes samplePlain) 30 7
      (by decide)).2 (by rfl)).1 2 (by decide) (by decide) (by decide)⟩

/-- C14 (non-Distance telegrams carry no points and no sector). On every buffer
on which `parseHeader` returns true with class tag `0xAAAA` or `0xCCCC`,
`isDist()` is false, `readDistRaw` leaves the result vector empty whatever it
held before, and `getField()` returns `-1`, whatever the payload bytes and the
parser state before the call. -/
theorem non_distance_no_points_no_sector (createCRC : Buffer → Int → Nat) (s : TelegramParser)
    (buffer : Buffer) (max_size : Nat) (DEVICE_ADDR : uint8_t) (res : List Int)
    (h : (parseHeader createCRC s buffer max_size DEVICE_ADDR).1 = true)
    (hcls : word16 buffer 20 = 0xAAAA ∨ word16 buffer 20 = 0xCCCC) :
    isDist (parseHeader createCRC s buffer max_size DEVICE_ADDR).2 = false
    ∧ readDistRaw (parseHeader createCRC s buffer max_size DEVICE_ADDR).2 buffer res = []
    ∧ getField (parseHeader createCRC s buffer max_size DEVICE_ADDR).2 = -1 := by
  obtain ⟨h10, hc, -, -, -⟩ := (parseHeader_accepts_iff _ _ _ _ _).mp h
  have htc3 := parseHeader_tc3 createCRC s buffer max_size DEVICE_ADDR h10 hc
  have htd := parseHeader_td createCRC s buffer max_size DEVICE_ADDR h
  have hne : word16 buffer 20 ≠ DISTANCE := by
    unfold DISTANCE
    omega
  rw [if_neg hne] at htd
  have hnd : isDist (parseHeader createCRC s buffer max_size DEVICE_ADDR).2 = false := by
    simp only [isDist, htc3, beq_eq_false_iff_ne, ne_eq]
    exact hne
  refine ⟨hnd, readDistRaw_not_dist _ _ _ hnd, ?_⟩
  simp only [getField, htd]
  decide

/-- Witness for C14 on `sampleIO`, parsed by a parser that has just decoded the
Distance telegram `sampleCompat` with sector 1, into a vector holding its two
points. -/
theorem non_distance_no_points_no_sector_witness :
    getField (parseHeader sumCRC TelegramParser.init (ofBytes sampleCompat) 30 7).2 = 1
    ∧ (parseHeader sumCRC
        (parseHeader sumCRC TelegramParser.init (ofBytes sampleCompat) 30 7).2
        (ofBytes sampleIO) 24 7).1 = true
    ∧ (isDist (parseHeader sumCRC
          (parseHeader sumCRC TelegramParser.init (ofBytes sampleCompat) 30 7).2
          (ofBytes sampleIO) 24 7).2 = false
      ∧ readDistRaw (parseHeader sumCRC
          (parseHeader sumCRC TelegramParser.init (ofBytes sampleCompat) 30 7).2
          (ofBytes sampleIO) 24 7).2 (ofBytes sampleIO) [5, 8197] = []
      ∧ getField (parseHeader sumCRC
          (parseHeader sumCRC TelegramParser.init (ofBytes sampleCompat) 30 7).2
          (ofBytes sampleIO) 24 7).2 = -1) :=
  ⟨by rfl, by rfl,
   non_distance_no_points_no_sector sumCRC
     (parseHeader sumCRC TelegramParser.init (ofBytes sampleCompat) 30 7).2
     (ofBytes sampleIO) 24 7 [5, 8197] (by rfl) (by decide)⟩

/-- C15, as stated, fails: `sampleScenarioFour` is the compatibility-mode
telegram with the declared size that makes the user payload 4 bytes, with the
Distance and sector tags, the points `0x0005` and `0x2005` and a matching CRC at
its end; `parseHeader` looks for the CRC right after the two tags, rejects the
telegram, and `readDistRaw` has no point to return. -/
theorem scenario_payload_four_counterexample :
    word16 (ofBytes sampleScenarioFour) 10 = 0x102
    ∧ 2 * (declared_size_words (ofBytes sampleScenarioFour) : Int) - 18 = 4
    ∧ word16 (ofBytes sampleScenarioFour) 28
        = sumCRC ((ofBytes sampleScenarioFour).plus 4) 24 % 65536
    ∧ (parseHeader sumCRC TelegramParser.init (ofBytes sampleScenarioFour) 30 7).1 = false
    ∧ (parseHeader sumCRC TelegramParser.init (ofBytes sampleScenarioFour) 30 7).2.user_data_size_
        = 4
    ∧ readDistRaw (parseHeader sumCRC TelegramParser.init (ofBytes sampleScenarioFour) 30 7).2
        (ofBytes sampleScenarioFour) [] = [] := by
  refine ⟨by decide, by decide, by decide, by rfl, by rfl, by rfl⟩

/-- C15, amended. A compatibility-mode telegram (version bytes `02 01`) with the
declared size that makes the user payload 8 bytes (13 words), class tag
`0xBBBB`, sector tag `0x1111`, the two raw point values `0x0005` and `0x2005`
and a matching CRC is accepted by `parseHeader` and decodes to class Distance,
sector 1 and `readDistRaw = [0x0005, 0x2005]`: two points of range 5, the
second with the distorted bit set. -/
theorem compat_scenario (createCRC : Buffer → Int → Nat) (s : TelegramParser)
    (buffer : Buffer) (max_size : Nat) (DEVICE_ADDR : uint8_t) (res : List Int)
    (hhdr : ((buffer 0).val = 0 ∧ (buffer 1).val = 0 ∧ (buffer 2).val = 0 ∧ (buffer 3).val = 0
      ∧ (buffer 4).val = 0 ∧ (buffer 5).val = 0) ∧ (buffer 8).val = 255)
    (hsize : (buffer 6).val = 0 ∧ (buffer 7).val = 13)
    (hver : (buffer 10).val = 2 ∧ (buffer 11).val = 1)
    (hcls : (buffer 20).val = 0xBB ∧ (buffer 21).val = 0xBB)
    (hsec : (buffer 22).val = 0x11 ∧ (buffer 23).val = 0x11)
    (hpts : (buffer 24).val = 0x05 ∧ (buffer 25).val = 0x00
      ∧ (buffer 26).val = 0x05 ∧ (buffer 27).val = 0x20)
    (hcrc : (buffer 28).val + 256 * (buffer 29).val = createCRC (buffer.plus 4) 24 % 65536)
    (hmax : 30 ≤ max_size) :
    (parseHeader createCRC s buffer max_size DEVICE_ADDR).1 = true
    ∧ (parseHeader createCRC s buffer max_size DEVICE_ADDR).2.user_data_size_ = 8
    ∧ isDist (parseHeader createCRC s buffer max_size DEVICE_ADDR).2 = true
    ∧ getField (parseHeader createCRC s buffer max_size DEVICE_ADDR).2 = 1
    ∧ readDistRaw (parseHeader createCRC s buffer max_size DEVICE_ADDR).2 buffer res
        = [0x0005, 0x2005]
    ∧ (distance 0x0005 = 5 ∧ bit13 0x0005 = 0 ∧ distance 0x2005 = 5 ∧ bit13 0x2005 = 1) := by
  have h10 : 10 ≤ max_size := by omega
  have hc : check (TELEGRAM_COMMON1.read buffer) DEVICE_ADDR = true := (check_iff _ _).mpr hhdr
  have hn : declared_size_words buffer = 13 := by
    unfold declared_size_words
    omega
  have hv : word16 buffer 10 = 0x102 := by
    simp only [word16, Nat.reduceAdd]
    omega
  have hsel := selected_compat createCRC buffer hv
  have hd : word16 buffer 20 = DISTANCE := by
    simp only [word16, DISTANCE, Nat.reduceAdd]
    omega
  have hacc : (parseHeader createCRC s buffer max_size DEVICE_ADDR).1 = true := by
    rw [parseHeader_accepts_iff, hsel, hn]
    refine ⟨h10, hc, ?_, ?_, ?_⟩
    · simp only [Layout.counted]
      omega
    · simp only [crcTest, hn, Layout.counted, word16, beq_iff_eq, Nat.reduceAdd, Nat.reduceMul,
        Nat.reduceSub]
      exact hcrc
    · simp only [knownClass, Bool.or_eq_true, beq_iff_eq]
      exact Or.inl (Or.inr hd)
  have hu := parseHeader_user_data_size createCRC s buffer max_size DEVICE_ADDR h10 hc
  rw [hsel, hn] at hu
  have hu8 : (parseHeader createCRC s buffer max_size DEVICE_ADDR).2.user_data_size_ = 8 := by
    rw [hu]
    rfl
  have htc3 := parseHeader_tc3 createCRC s buffer max_size DEVICE_ADDR h10 hc
  have htd := parseHeader_td createCRC s buffer max_size DEVICE_ADDR hacc
  rw [if_pos hd] at htd
  have hisD : isDist (parseHeader createCRC s buffer max_size DEVICE_ADDR).2 = true := by
    simp only [isDist, htc3, hd, beq_self_eq_true]
  refine ⟨hacc, hu8, hisD, ?_, ?_, by decide⟩
  · have := getField_of_sector _ 1 ⟨by decide, by decide⟩
      (show (parseHeader createCRC s buffer max_size DEVICE_ADDR).2.td_.type = 0x1111 * 1 by
        rw [htd]; omega)
    simpa using this
  · have hnum : to_size_t ((to_size_t ((to_size_t
        (parseHeader createCRC s buffer max_size DEVICE_ADDR).2.user_data_size_ : Int) - 2)
          : Int) - 2) / 2 = 2 := by
      rw [hu8]
      decide
    apply List.ext_getElem?
    intro i
    by_cases hi : i < 2
    · have g := readDistRaw_getElem? _ buffer res i hisD (by rw [hnum]; exact hi)
      rw [g]
      interval_cases i
      · simp only [word16, size_t_mod, Nat.reduceMul, Nat.reduceAdd, Nat.reduceMod]
        rw [hpts.1, hpts.2.1]
        rfl
      · simp only [word16, size_t_mod, Nat.reduceMul, Nat.reduceAdd, Nat.reduceMod]
        rw [hpts.2.2.1, hpts.2.2.2]
        rfl
    · have hl := readDistRaw_length _ buffer res hisD
      rw [hnum] at hl
      rw [List.getElem?_eq_none (by omega), List.getElem?_eq_none (by simp; omega)]

/-- Witness for the amended C15 on `sampleCompat`. -/
theorem compat_scenario_witness :
    (ofBytes sampleCompat 28).val + 256 * (ofBytes sampleCompat 29).val
        = sumCRC ((ofBytes sampleCompat).plus 4) 24 % 65536
    ∧ ((parseHeader sumCRC TelegramParser.init (ofBytes sampleCompat) 30 7).1 = true
      ∧ (parseHeader sumCRC TelegramParser.init (ofBytes sampleCompat) 30 7).2.user_data_size_ = 8
      ∧ isDist (parseHeader sumCRC TelegramParser.init (ofBytes sampleCompat) 30 7).2 = true
      ∧ getField (parseHeader sumCRC TelegramParser.init (ofBytes sampleCompat) 30 7).2 = 1
      ∧ readDistRaw (parseHeader sumCRC TelegramParser.init (ofBytes sampleCompat) 30 7).2
          (ofBytes sampleCompat) [9] = [0x0005, 0x2005]
      ∧ (distance 0x0005 = 5 ∧ bit13 0x0005 = 0 ∧ distance 0x2005 = 5 ∧ bit13 0x2005 = 1)) :=
  ⟨by decide,
   compat_scenario sumCRC TelegramParser.init (ofBytes sampleCompat) 30 7 [9]
     (by decide) (by decide) (by decide) (by decide) (by decide) (by decide) (by decide)
     (by decide)⟩

/-- C16, evaluated at its failing input: a window of 14 bytes, shorter than the
20-byte fixed part, is accepted by `parseHeader`, as a telegram of 14 bytes
with a user payload of -8 bytes, on the strength of a class tag read at bytes
20..21, outside the window. -/
theorem short_window_accepted :
    (parseHeader sumCRC TelegramParser.init (ofBytes sampleShortWindow) 14 7).1 = true
    ∧ getCompletePacketSize
        (parseHeader sumCRC TelegramParser.init (ofBytes sampleShortWindow) 14 7).2 = 14
    ∧ (parseHeader sumCRC TelegramParser.init (ofBytes sampleShortWindow) 14 7).2.tc3_.type
        = word16 (ofBytes sampleShortWindow) 20 := by
  refine ⟨by rfl, by rfl, by rfl⟩

/-- C17, evaluated at its failing input: on a window that holds exactly the ten
header bytes `sampleHeader`, `parseHeader` reads the meta block and the class
tag at bytes 10..21, the layout-2 CRC field at bytes 32..33 with bytes 4..31
handed to `createCRC`, then the layout-3 CRC field at bytes 38..39 with bytes
4..37 handed to `createCRC`, all outside the window, and only then finds the
total size of 40 above `max_size = 10` and returns false. -/
theorem reads_past_window :
    (parseHeader sumCRC TelegramParser.init (ofBytes sampleHeader) 10 7).1 = false
    ∧ (parseHeaderTraced sumCRC TelegramParser.init (ofBytes sampleHeader) 10 7).2
        = [(0, 10), (10, 20), (20, 22), (32, 34), (4, 32), (38, 40), (4, 38)]
    ∧ getCompletePacketSize
        (parseHeader sumCRC TelegramParser.init (ofBytes sampleHeader) 10 7).2 = 40 := by
  refine ⟨by rfl, by rfl, by rfl⟩

/-- C18, as stated, fails: on the ten bytes `sampleBadHeader` the header pattern
check fails, `parseHeader` returns false, and the field `tc1_` of the parser no
longer has the value it had before the call. -/
theorem header_rejection_counterexample :
    check (TELEGRAM_COMMON1.read (ofBytes sampleBadHeader)) 7 = false
    ∧ (parseHeader sumCRC TelegramParser.init (ofBytes sampleBadHeader) 10 7).1 = false
    ∧ (parseHeader sumCRC TelegramParser.init (ofBytes sampleBadHeader) 10 7).2.tc1_
        ≠ TelegramParser.init.tc1_ := by
  refine ⟨by decide, by rfl, by decide⟩

/-- C18, amended. For every parser state, buffer and device address, if
`max_size < 10` or the header pattern check fails, `parseHeader` returns false
and every field of the parser other than `tc1_` (`tc2_`, `tc3_`, `td_`,
`size_field_start_byte_`, `crc_bytes_in_size_`, `user_data_size_`) is equal to
its value before the call; `tc1_` is unchanged when `max_size < 10` and holds
the ten raw header bytes when the pattern check fails. -/
theorem header_rejection_frame (createCRC : Buffer → Int → Nat) (s : TelegramParser)
    (buffer : Buffer) (max_size : Nat) (DEVICE_ADDR : uint8_t)
    (h : max_size < 10 ∨ check (TELEGRAM_COMMON1.read buffer) DEVICE_ADDR = false) :
    (parseHeader createCRC s buffer max_size DEVICE_ADDR).1 = false
    ∧ (parseHeader createCRC s buffer max_size DEVICE_ADDR).2.tc2_ = s.tc2_
    ∧ (parseHeader createCRC s buffer max_size DEVICE_ADDR).2.tc3_ = s.tc3_
    ∧ (parseHeader createCRC s buffer max_size DEVICE_ADDR).2.td_ = s.td_
    ∧ (parseHeader createCRC s buffer max_size DEVICE_ADDR).2.size_field_start_byte_
        = s.size_field_start_byte_
    ∧ (parseHeader createCRC s buffer max_size DEVICE_ADDR).2.crc_bytes_in_size_
        = s.crc_bytes_in_size_
    ∧ (parseHeader createCRC s buffer max_size DEVICE_ADDR).2.user_data_size_
        = s.user_data_size_
    ∧ (max_size < 10 → (parseHeader createCRC s buffer max_size DEVICE_ADDR).2.tc1_ = s.tc1_)
    ∧ (10 ≤ max_size →
        (parseHeader createCRC s buffer max_size DEVICE_ADDR).2.tc1_
          = TELEGRAM_COMMON1.read buffer) := by
  by_cases h10 : max_size < 10
  · rw [parseHeader_short_window createCRC s buffer max_size DEVICE_ADDR h10]
    exact ⟨rfl, rfl, rfl, rfl, rfl, rfl, rfl, fun _ => rfl, fun h' => absurd h10 (by omega)⟩
  · have hc : check (TELEGRAM_COMMON1.read buffer) DEVICE_ADDR = false := by
      rcases h with h | h
      · exact absurd h h10
      · exact h
    rw [parseHeader_bad_header createCRC s buffer max_size DEVICE_ADDR (by omega) hc]
    exact ⟨rfl, rfl, rfl, rfl, rfl, rfl, rfl, fun h' => absurd h' h10, fun _ => rfl⟩

/-- Witness for the amended C18 on `sampleBadHeader`. -/
theorem header_rejection_frame_witness :
    ((10 : Nat) < 10 ∨ check (TELEGRAM_COMMON1.read (ofBytes sampleBadHeader)) 7 = false)
    ∧ (parseHeader sumCRC TelegramParser.init (ofBytes sampleBadHeader) 10 7).1 = false
    ∧ (parseHeader sumCRC TelegramParser.init (ofBytes sampleBadHeader) 10 7).2.user_data_size_
        = TelegramParser.init.user_data_size_ :=
  ⟨by decide,
   (header_rejection_frame sumCRC TelegramParser.init (ofBytes sampleBadHeader) 10 7
      (by decide)).1,
   (header_rejection_frame sumCRC TelegramParser.init (ofBytes sampleBadHeader) 10 7
      (by decide)).2.2.2.2.2.2.1⟩

/-- C19, evaluated at its failing input: in a window of 22 bytes `parseHeader`
accepts a compatibility-mode telegram that declares 5 words, fewer than the 18
bytes its layout subtracts: the user payload size is -8, the complete packet
size 14, and the class tag at bytes 20..21 lies above the accepted telegram. -/
theorem declared_size_below_fixed_part :
    (parseHeader sumCRC TelegramParser.init (ofBytes sampleShortWindow) 22 7).1 = true
    ∧ (parseHeader sumCRC TelegramParser.init (ofBytes sampleShortWindow) 22 7).2.size_field_start_byte_
        = 4
    ∧ 2 * declared_size_words (ofBytes sampleShortWindow) = 10
    ∧ (parseHeader sumCRC TelegramParser.init (ofBytes sampleShortWindow) 22 7).2.user_data_size_
        = -8
    ∧ getCompletePacketSize
        (parseHeader sumCRC TelegramParser.init (ofBytes sampleShortWindow) 22 7).2 - 2 = 12 := by
  refine ⟨by rfl, by rfl, by decide, by rfl, by rfl⟩

/-- C20 (compatibility mode is selected by the wire bytes `02 01`). For every
buffer that passes the header check, `parseHeader` compares the protocol version
field as it lies in memory, `buffer[10] + 256*buffer[11]`, with `0x0102`, and
applies the layout-1 size rule if and only if `buffer[10] = 0x02` and
`buffer[11] = 0x01`; every other pair of bytes is probed under layout 2 and,
when the layout-2 CRC test fails, under layout 3. -/
theorem compat_selected_by_wire_bytes (createCRC : Buffer → Int → Nat) (s : TelegramParser)
    (buffer : Buffer) (max_size : Nat) (DEVICE_ADDR : uint8_t)
    (h10 : 10 ≤ max_size) (hc : check (TELEGRAM_COMMON1.read buffer) DEVICE_ADDR = true) :
    (parseHeader createCRC s buffer max_size DEVICE_ADDR).2.tc2_.protocol_version
        = (buffer 10).val + 256 * (buffer 11).val
    ∧ ((parseHeader createCRC s buffer max_size DEVICE_ADDR).2.size_field_start_byte_ = 4
        ↔ ((buffer 10).val = 0x02 ∧ (buffer 11).val = 0x01))
    ∧ (((buffer 10).val = 0x02 ∧ (buffer 11).val = 0x01) →
        (parseHeader createCRC s buffer max_size DEVICE_ADDR).2.crc_bytes_in_size_ = 2
        ∧ (parseHeader createCRC s buffer max_size DEVICE_ADDR).2.user_data_size_
            = 2 * (declared_size_words buffer : Int) - 18)
    ∧ (¬ ((buffer 10).val = 0x02 ∧ (buffer 11).val = 0x01) →
        (crcTest createCRC buffer .plain = true
          ∧ (parseHeader createCRC s buffer max_size DEVICE_ADDR).2.size_field_start_byte_ = 8
          ∧ (parseHeader createCRC s buffer max_size DEVICE_ADDR).2.crc_bytes_in_size_ = 2
          ∧ (parseHeader createCRC s buffer max_size DEVICE_ADDR).2.user_data_size_
              = 2 * (declared_size_words buffer : Int) - 14)
        ∨ (crcTest createCRC buffer .plain = false
          ∧ (parseHeader createCRC s buffer max_size DEVICE_ADDR).2.size_field_start_byte_ = 12
          ∧ (parseHeader createCRC s buffer max_size DEVICE_ADDR).2.crc_bytes_in_size_ = 0
          ∧ (parseHeader createCRC s buffer max_size DEVICE_ADDR).2.user_data_size_
              = 2 * (declared_size_words buffer : Int) - 8)) := by
  have hlay := parseHeader_layout_fields createCRC s buffer max_size DEVICE_ADDR h10 hc
  have hu := parseHeader_user_data_size createCRC s buffer max_size DEVICE_ADDR h10 hc
  have htc2 := parseHeader_tc2 createCRC s buffer max_size DEVICE_ADDR h10 hc
  have hw : word16 buffer 10 = 0x102 ↔ ((buffer 10).val = 0x02 ∧ (buffer 11).val = 0x01) := by
    simp only [word16, Nat.reduceAdd]
    omega
  by_cases hv : word16 buffer 10 = 0x102
  · have hsel := selected_compat createCRC buffer hv
    rw [hsel] at hlay hu
    refine ⟨?_, ?_, fun _ => ⟨hlay.2, hu⟩, fun hn => absurd (hw.mp hv) hn⟩
    · rw [htc2]
      rfl
    · rw [hlay.1]
      exact ⟨fun _ => hw.mp hv, fun _ => rfl⟩
  · refine ⟨?_, ?_, fun hy => absurd (hw.mpr hy) hv, fun _ => ?_⟩
    · rw [htc2]
      rfl
    · by_cases h2 : crcTest createCRC buffer .plain = true
      · have hsel := selected_plain createCRC buffer hv h2
        rw [hsel] at hlay
        rw [hlay.1]
        exact ⟨fun h => by simp [Layout.start] at h, fun h => absurd (hw.mpr h) hv⟩
      · have h2f : crcTest createCRC buffer .plain = false := by simpa using h2
        have hsel := selected_optional createCRC buffer hv h2f
        rw [hsel] at hlay
        rw [hlay.1]
        exact ⟨fun h => by simp [Layout.start] at h, fun h => absurd (hw.mpr h) hv⟩
    · by_cases h2 : crcTest createCRC buffer .plain = true
      · have hsel := selected_plain createCRC buffer hv h2
        rw [hsel] at hlay hu
        exact Or.inl ⟨h2, hlay.1, hlay.2, hu⟩
      · have h2f : crcTest createCRC buffer .plain = false := by simpa using h2
        have hsel := selected_optional createCRC buffer hv h2f
        rw [hsel] at hlay hu
        exact Or.inr ⟨h2f, hlay.1, hlay.2, hu⟩

/-- Witness for C20 on `sampleVersionSwapped`, whose version bytes are `01 02`:
it is not treated as compatibility mode. -/
theorem compat_selected_by_wire_bytes_witness :
    check (TELEGRAM_COMMON1.read (ofBytes sampleVersionSwapped)) 7 = true
    ∧ (ofBytes sampleVersionSwapped 10).val = 0x01 ∧ (ofBytes sampleVersionSwapped 11).val = 0x02
    ∧ ((parseHeader sumCRC TelegramParser.init (ofBytes sampleVersionSwapped) 12
          7).2.size_field_start_byte_ = 4
        ↔ ((ofBytes sampleVersionSwapped 10).val = 0x02
            ∧ (ofBytes sampleVersionSwapped 11).val = 0x01)) :=
  ⟨by decide, by decide, by decide,
   (compat_selected_by_wire_bytes sumCRC TelegramParser.init (ofBytes sampleVersionSwapped) 12 7
      (by decide) (by decide)).2.1⟩

/-- C21 (payload length is point-aligned). On every buffer that passes the
length check and the header pattern check, the user payload size that
`parseHeader` leaves is even, and it is `2n - 18`, `2n - 14` or `2n - 8` for the
declared size `n`, with the start byte and the counted CRC bytes of the layout
it settled on. For every accepted Distance telegram the length left after the
4 tag bytes is therefore even, the division by 2 in `readDistRaw` is exact on
the numerator the code computes, and when the payload holds the two tags the
tags and the points returned fill the payload with no byte left over. An odd
remaining length, the condition of the malformed-payload-length error, never
occurs; `readDistRaw` has no error return. -/
theorem payload_size_point_aligned (createCRC : Buffer → Int → Nat) (s : TelegramParser)
    (buffer : Buffer) (max_size : Nat) (DEVICE_ADDR : uint8_t) (res : List Int)
    (h10 : 10 ≤ max_size) (hc : check (TELEGRAM_COMMON1.read buffer) DEVICE_ADDR = true) :
    (parseHeader createCRC s buffer max_size DEVICE_ADDR).2.user_data_size_ % 2 = 0
    ∧ (((parseHeader createCRC s buffer max_size DEVICE_ADDR).2.size_field_start_byte_ = 4
        ∧ (parseHeader createCRC s buffer max_size DEVICE_ADDR).2.crc_bytes_in_size_ = 2
        ∧ (parseHeader createCRC s buffer max_size DEVICE_ADDR).2.user_data_size_
            = 2 * (declared_size_words buffer : Int) - 18)
      ∨ ((parseHeader createCRC s buffer max_size DEVICE_ADDR).2.size_field_start_byte_ = 8
        ∧ (parseHeader createCRC s buffer max_size DEVICE_ADDR).2.crc_bytes_in_size_ = 2
        ∧ (parseHeader createCRC s buffer max_size DEVICE_ADDR).2.user_data_size_
            = 2 * (declared_size_words buffer : Int) - 14)
      ∨ ((parseHeader createCRC s buffer max_size DEVICE_ADDR).2.size_field_start_byte_ = 12
        ∧ (parseHeader createCRC s buffer max_size DEVICE_ADDR).2.crc_bytes_in_size_ = 0
        ∧ (parseHeader createCRC s buffer max_size DEVICE_ADDR).2.user_data_size_
            = 2 * (declared_size_words buffer : Int) - 8))
    ∧ ((parseHeader createCRC s buffer max_size DEVICE_ADDR).1 = true →
        isDist (parseHeader createCRC s buffer max_size DEVICE_ADDR).2 = true →
        ((parseHeader createCRC s buffer max_size DEVICE_ADDR).2.user_data_size_ - 4) % 2 = 0
        ∧ 2 * (readDistRaw (parseHeader createCRC s buffer max_size DEVICE_ADDR).2 buffer res).length
            = to_size_t ((to_size_t ((to_size_t
                (parseHeader createCRC s buffer max_size DEVICE_ADDR).2.user_data_size_ : Int)
                  - 2) : Int) - 2)
        ∧ (4 ≤ (parseHeader createCRC s buffer max_size DEVICE_ADDR).2.user_data_size_ →
            4 + 2 * ((readDistRaw (parseHeader createCRC s buffer max_size DEVICE_ADDR).2
                buffer res).length : Int)
              = (parseHeader createCRC s buffer max_size DEVICE_ADDR).2.user_data_size_)) := by
  have hu := parseHeader_user_data_size createCRC s buffer max_size DEVICE_ADDR h10 hc
  have hcases := parseHeader_layout_cases createCRC s buffer max_size DEVICE_ADDR h10 hc
  have hk := counted_le (selected createCRC buffer)
  have hn := declared_size_words_lt buffer
  have hex := num_points_exact (declared_size_words buffer) (selected createCRC buffer)
  rw [← hu] at hex
  generalize parseHeader createCRC s buffer max_size DEVICE_ADDR = r at *
  have hev : r.2.user_data_size_ % 2 = 0 := by
    rcases hcases with ⟨-, -, e⟩ | ⟨-, -, e⟩ | ⟨-, -, e⟩ <;> omega
  refine ⟨hev, hcases, ?_⟩
  intro _ hd
  have hl := readDistRaw_length r.2 buffer res hd
  refine ⟨by omega, ?_, ?_⟩
  · rw [hl]
    exact hex
  · intro h4
    have hlt : r.2.user_data_size_ < 200000 := by omega
    rw [hl, num_points_of_payload _ h4 hlt]
    omega

/-- Witness for C21 on `sampleCompat`: the payload is 8 bytes, the two tags and
two points. -/
theorem payload_size_point_aligned_witness :
    10 ≤ 30 ∧ check (TELEGRAM_COMMON1.read (ofBytes sampleCompat)) 7 = true
    ∧ (parseHeader sumCRC TelegramParser.init (ofBytes sampleCompat) 30 7).2.user_data_size_ = 8
    ∧ (parseHeader sumCRC TelegramParser.init (ofBytes sampleCompat) 30 7).2.user_data_size_ % 2
        = 0
    ∧ 4 + 2 * ((readDistRaw (parseHeader sumCRC TelegramParser.init (ofBytes sampleCompat) 30 7).2
          (ofBytes sampleCompat) []).length : Int)
        = (parseHeader sumCRC TelegramParser.init (ofBytes sampleCompat) 30 7).2.user_data_size_ :=
  ⟨by decide, by rfl, by rfl,
   (payload_size_point_aligned sumCRC TelegramParser.init (ofBytes sampleCompat) 30 7 []
      (by decide) (by rfl)).1,
   ((payload_size_point_aligned sumCRC TelegramParser.init (ofBytes sampleCompat) 30 7 []
      (by decide) (by rfl)).2.2 (by rfl) (by rfl)).2.2 (by decide)⟩

/-- C22 (no state leaks between telegrams on success). For any two parser
states `s1` and `s2` and the same buffer, `max_size` and device address,
`parseHeader` returns the same flag from both; and when it returns true, the
parser state after the call is the same from both, so `isDist()`, `getField()`,
`getCompletePacketSize()` and the vector that `readDistRaw` fills from that
buffer, whatever the vector held before, are the same from both. They are
functions of the buffer alone: two accepting calls on the same buffer leave
the same state also when their window sizes and device addresses differ. -/
theorem no_state_leak_on_success (createCRC : Buffer → Int → Nat) (s1 s2 : TelegramParser)
    (buffer : Buffer) (max_size : Nat) (DEVICE_ADDR : uint8_t) (res1 res2 : List Int) :
    (parseHeader createCRC s1 buffer max_size DEVICE_ADDR).1
      = (parseHeader createCRC s2 buffer max_size DEVICE_ADDR).1
    ∧ ((parseHeader createCRC s1 buffer max_size DEVICE_ADDR).1 = true →
        isDist (parseHeader createCRC s1 buffer max_size DEVICE_ADDR).2
          = isDist (parseHeader createCRC s2 buffer max_size DEVICE_ADDR).2
        ∧ getField (parseHeader createCRC s1 buffer max_size DEVICE_ADDR).2
          = getField (parseHeader createCRC s2 buffer max_size DEVICE_ADDR).2
        ∧ getCompletePacketSize (parseHeader createCRC s1 buffer max_size DEVICE_ADDR).2
          = getCompletePacketSize (parseHeader createCRC s2 buffer max_size DEVICE_ADDR).2
        ∧ readDistRaw (parseHeader createCRC s1 buffer max_size DEVICE_ADDR).2 buffer res1
          = readDistRaw (parseHeader createCRC s2 buffer max_size DEVICE_ADDR).2 buffer res2)
    ∧ (∀ (max_size2 : Nat) (DEVICE_ADDR2 : uint8_t),
        (parseHeader createCRC s1 buffer max_size DEVICE_ADDR).1 = true →
        (parseHeader createCRC s2 buffer max_size2 DEVICE_ADDR2).1 = true →
        (parseHeader createCRC s1 buffer max_size DEVICE_ADDR).2
          = (parseHeader createCRC s2 buffer max_size2 DEVICE_ADDR2).2) := by
  have hflag := parseHeader_flag_state_free createCRC s1 s2 buffer max_size DEVICE_ADDR
  refine ⟨hflag, ?_, ?_⟩
  · intro h
    have e := parseHeader_state_of_accept createCRC s1 s2 buffer max_size max_size
      DEVICE_ADDR DEVICE_ADDR h (hflag ▸ h)
    rw [e]
    exact ⟨rfl, rfl, rfl, readDistRaw_clears _ buffer res1 res2⟩
  · intro max_size2 DEVICE_ADDR2 h1 h2
    exact parseHeader_state_of_accept createCRC s1 s2 buffer max_size max_size2
      DEVICE_ADDR DEVICE_ADDR2 h1 h2

/-- Witness for C22: the telegram `samplePlain` (sector 2) parsed by a fresh
parser and by a parser that has just decoded `sampleCompat` (sector 1, other
layout), into an empty vector and into a vector holding older points. -/
theorem no_state_leak_on_success_witness :
    getField (parseHeader sumCRC TelegramParser.init (ofBytes sampleCompat) 30 7).2 = 1
    ∧ (parseHeader sumCRC TelegramParser.init (ofBytes samplePlain) 30 7).1 = true
    ∧ getField (parseHeader sumCRC TelegramParser.init (ofBytes samplePlain) 30 7).2 = 2
    ∧ getField (parseHeader sumCRC TelegramParser.init (ofBytes samplePlain) 30 7).2
        = getField (parseHeader sumCRC
            (parseHeader sumCRC TelegramParser.init (ofBytes sampleCompat) 30 7).2
            (ofBytes samplePlain) 30 7).2
    ∧ readDistRaw (parseHeader sumCRC TelegramParser.init (ofBytes samplePlain) 30 7).2
          (ofBytes samplePlain) []
        = readDistRaw (parseHeader sumCRC
            (parseHeader sumCRC TelegramParser.init (ofBytes sampleCompat) 30 7).2
            (ofBytes samplePlain) 30 7).2 (ofBytes samplePlain) [7, 9] :=
  ⟨by rfl, by rfl, by rfl,
   ((no_state_leak_on_success sumCRC TelegramParser.init
      (parseHeader sumCRC TelegramParser.init (ofBytes sampleCompat) 30 7).2
      (ofBytes samplePlain) 30 7 [] [7, 9]).2.1 (by rfl)).2.1,
   ((no_state_leak_on_success sumCRC TelegramParser.init
      (parseHeader sumCRC TelegramParser.init (ofBytes sampleCompat) 30 7).2
      (ofBytes samplePlain) 30 7 [] [7, 9]).2.1 (by rfl)).2.2.2⟩

/-- C23 (baud-rate lookup). For every integer rate `getBaudrateCode` returns,
and it returns true exactly when the rate is one of the 24 entries of
`baudTable`, which are `0, 50, 75, 110, 134, 150, 200, 300, 600, 1200, 1800,
2400, 4800, 9600, 19200, 38400, 57600, 115200, 230400, 460800, 500000, 576000,
921600, 1000000`. When the rate is the entry at position `i`, the code left in
`*iBaudrateCode` is the entry of `baudCodes` at position `i`, the speed macro
of that rate; when the rate is no entry, the flag is false and the code is the
default `B38400`. -/
theorem getBaudrateCode_lookup (t : Termios) (iBaudrate : Int) :
    baudTable = [0, 50, 75, 110, 134, 150, 200, 300, 600, 1200, 1800, 2400, 4800, 9600, 19200,
      38400, 57600, 115200, 230400, 460800, 500000, 576000, 921600, 1000000]
    ∧ (∃ ret code, getBaudrateCode t iBaudrate = some (ret, code)
        ∧ (ret = true ↔ iBaudrate ∈ baudTable))
    ∧ (∀ i : Nat, i < 24 → baudTable.getD i 0 = iBaudrate →
        getBaudrateCode t iBaudrate = some (true, (baudCodes t).getD i 0))
    ∧ (iBaudrate ∉ baudTable → getBaudrateCode t iBaudrate = some (false, t.B38400)) := by
  refine ⟨rfl, ?_, getBaudrateCode_at t iBaudrate, getBaudrateCode_default t iBaudrate⟩
  by_cases h : iBaudrate ∈ baudTable
  · obtain ⟨i, hi, hget⟩ := List.getElem_of_mem h
    have hi24 : i < 24 := hi
    have hD : baudTable.getD i 0 = iBaudrate := by
      rw [List.getD_eq_getElem baudTable 0 hi]
      exact hget
    exact ⟨true, _, getBaudrateCode_at t iBaudrate i hi24 hD, iff_of_true rfl h⟩
  · exact ⟨false, _, getBaudrateCode_default t iBaudrate h,
      iff_of_false Bool.false_ne_true h⟩

/-- Instances of C23 with the Linux values of the speed macros: 9600 baud is at
position 13 and gives `B9600 = 13`, and 9601 baud is no entry and gives the
default `B38400 = 15` with the flag false. -/
theorem getBaudrateCode_lookup_witness :
    getBaudrateCode termiosLinux 9600 = some (true, 13)
    ∧ getBaudrateCode termiosLinux 9601 = some (false, 15) :=
  ⟨(getBaudrateCode_lookup termiosLinux 9600).2.2.1 13 (by decide) (by decide),
   (getBaudrateCode_lookup termiosLinux 9601).2.2.2 (by decide)⟩

end SickS300
